import Mathlib

/-!
Verification development for the mail-archive incremental synchronization
engine (scripts/sync_imap.py, scripts/sync_pop3.py, scripts/sync_gmail_api.py,
scripts/eml_utils.py, scripts/sync_api.py, scripts/daemon.py).

The Python sources are shallowly embedded: file systems become association
lists from path strings to byte lists, Python sets become duplicate-free
string lists, exceptions become an `Except` monad, and the external
collaborators (POP3/IMAP/Gmail wire clients, the standard library's
`hashlib.sha256`, `email` header access and `email.utils.parsedate_to_datetime`)
are modelled by their narrow contracts, with SHA-256 implemented in full
(FIPS 180-4) so that content checksums are the real ones.
-/

set_option maxRecDepth 20000

/-! ## Python-style string and byte primitives -/

/-- Raw message bytes, each entry a byte value 0..255. -/
abbrev Bytes := List Nat

/-- Decode a byte list as text (the repository only handles ASCII artifacts). -/
def bytesToString (b : Bytes) : String := String.mk (b.map Char.ofNat)

/-- Encode text back to bytes, inverse of `bytesToString` on ASCII data. -/
def strToBytes (s : String) : Bytes := s.data.map Char.toNat

/-- Characters treated as whitespace by Python's `str.strip` / `str.split`. -/
def pyIsSpace (c : Char) : Bool :=
  c = ' ' || c = '\t' || c = '\n' || c = '\r' || c = Char.ofNat 11 || c = Char.ofNat 12

/-- Python `str.strip()`: drop leading and trailing whitespace. -/
def pyStrip (s : String) : String :=
  String.mk (((s.data.dropWhile pyIsSpace).reverse.dropWhile pyIsSpace).reverse)

/-- Split a character list on a separator character, keeping empty chunks,
like Python's `str.split(sep)` for a one-character separator. -/
def splitCharsOn (sep : Char) : List Char → List (List Char)
  | [] => [[]]
  | c :: rest =>
    match splitCharsOn sep rest with
    | [] => [[]]
    | g :: gs => if c = sep then [] :: g :: gs else (c :: g) :: gs

/-- Python `text.split("\n")`. -/
def pySplitNL (s : String) : List String := (splitCharsOn '\n' s.data).map String.mk

/-- Python `sep.join(parts)` for separator `"\n"`. -/
def joinNL : List String → String
  | [] => ""
  | [x] => x
  | x :: y :: rest => x ++ "\n" ++ joinNL (y :: rest)

/-- Python `str.split()` with no argument: split on whitespace runs,
discarding empty chunks. -/
def pySplitWS (s : String) : List String :=
  ((splitCharsOn ' ' (s.data.map fun c => if pyIsSpace c then ' ' else c)).map
    String.mk).filter (fun t => t ≠ "")

/-- Lexicographic code-point comparison, Python's `<=` on `str`. -/
def charsLe : List Char → List Char → Bool
  | [], _ => true
  | _ :: _, [] => false
  | a :: as, b :: bs =>
    if a.toNat < b.toNat then true
    else if b.toNat < a.toNat then false
    else charsLe as bs

/-- Python string `<=`. -/
def strLeB (a b : String) : Bool := charsLe a.data b.data

/-- Insert into a sorted list, auxiliary to `pySorted`. -/
def insertStr (x : String) : List String → List String
  | [] => [x]
  | y :: ys => if strLeB x y then x :: y :: ys else y :: insertStr x ys

/-- Python `sorted` on strings (stable result: code-point lexicographic order). -/
def pySorted (l : List String) : List String := l.foldr insertStr []

/-- Python `set.add`: identifier sets are duplicate-free lists. -/
def setAdd (l : List String) (x : String) : List String :=
  if l.contains x then l else l ++ [x]

/-- Python `str.lower` restricted to ASCII. -/
def pyLower (s : String) : String :=
  String.mk (s.data.map fun c =>
    if 65 ≤ c.toNat ∧ c.toNat ≤ 90 then Char.ofNat (c.toNat + 32) else c)

/-- Membership test for a character-list prefix, helper for substring search. -/
def charsIsPref : List Char → List Char → Bool
  | [], _ => true
  | _ :: _, [] => false
  | a :: as, b :: bs => a = b && charsIsPref as bs

/-- Substring search helper over character lists. -/
def charsContains (pat : List Char) : List Char → Bool
  | [] => charsIsPref pat []
  | c :: rest => charsIsPref pat (c :: rest) || charsContains pat rest

/-- Python `pat in s` on strings. -/
def strContains (s pat : String) : Bool := charsContains pat.data s.data

/-- Python single-character `str.replace(old, new)`. -/
def replaceChar (s : String) (old new : Char) : String :=
  String.mk (s.data.map fun c => if c = old then new else c)

/-- Python `str.replace(old, "")` for a one-character pattern. -/
def removeChar (s : String) (old : Char) : String :=
  String.mk (s.data.filter fun c => c ≠ old)

/-- Parse a nonempty all-digit string, helper for the RFC 2822 date model. -/
def parseDigits (s : String) : Option Nat :=
  if s.data ≠ [] ∧ s.data.all (fun c => c.isDigit) then
    some (s.data.foldl (fun acc c => 10 * acc + (c.toNat - 48)) 0)
  else none

/-! ## SHA-256 (FIPS 180-4), the `hashlib.sha256` collaborator -/

/-- Modulus for 32-bit words. -/
def w32 : Nat := 4294967296

/-- Rotate a 32-bit word right by `n`. -/
def rotr32 (n x : Nat) : Nat := ((x >>> n) ||| (x <<< (32 - n))) % w32

/-- SHA-256 choice function. -/
def shaCh (e f g : Nat) : Nat := (e &&& f) ^^^ ((e ^^^ 4294967295) &&& g)

/-- SHA-256 majority function. -/
def shaMaj (a b c : Nat) : Nat := (a &&& b) ^^^ (a &&& c) ^^^ (b &&& c)

/-- SHA-256 big sigma 0. -/
def bigSigma0 (x : Nat) : Nat := rotr32 2 x ^^^ rotr32 13 x ^^^ rotr32 22 x

/-- SHA-256 big sigma 1. -/
def bigSigma1 (x : Nat) : Nat := rotr32 6 x ^^^ rotr32 11 x ^^^ rotr32 25 x

/-- SHA-256 small sigma 0. -/
def smallSigma0 (x : Nat) : Nat := rotr32 7 x ^^^ rotr32 18 x ^^^ (x >>> 3)

/-- SHA-256 small sigma 1. -/
def smallSigma1 (x : Nat) : Nat := rotr32 17 x ^^^ rotr32 19 x ^^^ (x >>> 10)

/-- SHA-256 round constants. -/
def shaK : List Nat := [
  1116352408, 1899447441, 3049323471, 3921009573, 961987163, 1508970993, 2453635748, 2870763221,
  3624381080, 310598401, 607225278, 1426881987, 1925078388, 2162078206, 2614888103, 3248222580,
  3835390401, 4022224774, 264347078, 604807628, 770255983, 1249150122, 1555081692, 1996064986,
  2554220882, 2821834349, 2952996808, 3210313671, 3336571891, 3584528711, 113926993, 338241895,
  666307205, 773529912, 1294757372, 1396182291, 1695183700, 1986661051, 2177026350, 2456956037,
  2730485921, 2820302411, 3259730800, 3345764771, 3516065817, 3600352804, 4094571909, 275423344,
  430227734, 506948616, 659060556, 883997877, 958139571, 1322822218, 1537002063, 1747873779,
  1955562222, 2024104815, 2227730452, 2361852424, 2428436474, 2756734187, 3204031479, 3329325298]

/-- SHA-256 initial hash value. -/
def shaH0 : List Nat :=
  [1779033703, 3144134277, 1013904242, 2773480762, 1359893119, 2600822924, 528734635, 1541459225]

/-- SHA-256 message padding. -/
def shaPad (msg : Bytes) : Bytes :=
  let len := msg.length
  let bitLen := 8 * len
  let zeros := (64 + 56 - ((len + 1) % 64)) % 64
  msg ++ [0x80] ++ List.replicate zeros 0 ++
    [(bitLen >>> 56) % 256, (bitLen >>> 48) % 256, (bitLen >>> 40) % 256, (bitLen >>> 32) % 256,
     (bitLen >>> 24) % 256, (bitLen >>> 16) % 256, (bitLen >>> 8) % 256, bitLen % 256]

/-- Big-endian 32-bit words of one 64-byte block. -/
def blockWords (block : Bytes) : List Nat :=
  (List.range 16).map fun i =>
    (block.getD (4 * i) 0) * 16777216 + (block.getD (4 * i + 1) 0) * 65536 +
      (block.getD (4 * i + 2) 0) * 256 + block.getD (4 * i + 3) 0

/-- Extend the 16 block words to the 64-entry message schedule. -/
def extendSched : Nat → List Nat → List Nat
  | 0, w => w
  | n + 1, w =>
    let t := w.length
    let next := (smallSigma1 (w.getD (t - 2) 0) + w.getD (t - 7) 0 +
      smallSigma0 (w.getD (t - 15) 0) + w.getD (t - 16) 0) % w32
    extendSched n (w ++ [next])

/-- Working registers of the SHA-256 compression function. -/
structure ShaRegs where
  a : Nat
  b : Nat
  c : Nat
  d : Nat
  e : Nat
  f : Nat
  g : Nat
  h : Nat

/-- One SHA-256 compression round. -/
def shaRound (wt kt : Nat) (r : ShaRegs) : ShaRegs :=
  let t1 := (r.h + bigSigma1 r.e + shaCh r.e r.f r.g + kt + wt) % w32
  let t2 := (bigSigma0 r.a + shaMaj r.a r.b r.c) % w32
  { a := (t1 + t2) % w32, b := r.a, c := r.b, d := r.c,
    e := (r.d + t1) % w32, f := r.e, g := r.f, h := r.g }

/-- Compress one 64-byte block into the running hash state. -/
def compressBlock (hs : List Nat) (block : Bytes) : List Nat :=
  let w := extendSched 48 (blockWords block)
  let init : ShaRegs :=
    { a := hs.getD 0 0, b := hs.getD 1 0, c := hs.getD 2 0, d := hs.getD 3 0,
      e := hs.getD 4 0, f := hs.getD 5 0, g := hs.getD 6 0, h := hs.getD 7 0 }
  let r := (List.range 64).foldl (fun r t => shaRound (w.getD t 0) (shaK.getD t 0) r) init
  [(hs.getD 0 0 + r.a) % w32, (hs.getD 1 0 + r.b) % w32, (hs.getD 2 0 + r.c) % w32,
   (hs.getD 3 0 + r.d) % w32, (hs.getD 4 0 + r.e) % w32, (hs.getD 5 0 + r.f) % w32,
   (hs.getD 6 0 + r.g) % w32, (hs.getD 7 0 + r.h) % w32]

/-- The eight 32-bit hash words of a message. -/
def sha256Words (msg : Bytes) : List Nat :=
  let padded := shaPad msg
  let blocks := (List.range (padded.length / 64)).map fun i => (padded.drop (64 * i)).take 64
  blocks.foldl compressBlock shaH0

/-- Lowercase hexadecimal digit, as produced by Python's `hexdigest`. -/
def hexDigit (n : Nat) : Char := if n < 10 then Char.ofNat (48 + n) else Char.ofNat (87 + n)

/-- Eight hex characters of one 32-bit word, most significant first. -/
def wordToHex (x : Nat) : List Char :=
  [hexDigit ((x >>> 28) % 16), hexDigit ((x >>> 24) % 16), hexDigit ((x >>> 20) % 16),
   hexDigit ((x >>> 16) % 16), hexDigit ((x >>> 12) % 16), hexDigit ((x >>> 8) % 16),
   hexDigit ((x >>> 4) % 16), hexDigit (x % 16)]

/-- Python `hashlib.sha256(raw).hexdigest()`: the 64-character hex digest. -/
def sha256hex (msg : Bytes) : String :=
  String.mk ((sha256Words msg).flatMap wordToHex)


/-! ## Python exceptions, datetimes and the RFC 2822 date collaborator -/

/-- The Python exception kinds the embedded code can raise. -/
inductive PyExc
  | nameError (msg : String)
  | valueError (msg : String)
  deriving DecidableEq, Repr

/-- A Python `datetime`: the absolute instant (seconds since the Unix epoch)
together with the offset of the timezone it is expressed in (minutes). -/
structure PyDateTime where
  epochSeconds : Int
  offMin : Int
  deriving DecidableEq, Repr

/-- Python `datetime.astimezone(timezone.utc)`: same instant, UTC offset. -/
def astimezoneUTC (d : PyDateTime) : PyDateTime :=
  { epochSeconds := d.epochSeconds, offMin := 0 }

/-- Days since 1970-01-01 of a proleptic Gregorian civil date
(Hinnant's days-from-civil algorithm, with floor division). -/
def daysFromCivil (y m d : Int) : Int :=
  let y2 := if m ≤ 2 then y - 1 else y
  let era := Int.fdiv y2 400
  let yoe := y2 - era * 400
  let mp := Int.emod (m + 9) 12
  let doy := Int.fdiv (153 * mp + 2) 5 + d - 1
  let doe := yoe * 365 + Int.fdiv yoe 4 - Int.fdiv yoe 100 + doy
  era * 146097 + doe - 719468

/-- Lowercased month names accepted by the RFC 2822 date parser. -/
def monthNames : List String :=
  ["jan", "feb", "mar", "apr", "may", "jun", "jul", "aug", "sep", "oct", "nov", "dec"]

/-- Lowercased weekday names accepted (and discarded) by the date parser. -/
def dayNames : List String := ["mon", "tue", "wed", "thu", "fri", "sat", "sun"]

/-- Index of a month name, 1-based. -/
def monthIndex (mon : String) : Option Nat :=
  (monthNames.indexOf? (pyLower mon)).map (· + 1)

/-- Numeric `+HHMM` / `-HHMM` timezone, or a well-known zone name, in minutes.
Models the zone table of `email._parseaddr`; an unrecognized zone is treated
as UTC (the stdlib then yields a naive datetime, a case the repository never
distinguishes). -/
def parseTZ (s : String) : Option Int :=
  match s.data with
  | '+' :: rest =>
    if rest.length = 4 then
      (parseDigits (String.mk rest)).map fun n => ((n / 100) * 60 + n % 100 : Int)
    else none
  | '-' :: rest =>
    if rest.length = 4 then
      (parseDigits (String.mk rest)).map fun n => (-((n / 100) * 60 + n % 100) : Int)
    else none
  | _ =>
    match pyLower s with
    | "ut" => some 0
    | "utc" => some 0
    | "gmt" => some 0
    | "est" => some (-300)
    | "edt" => some (-240)
    | "cst" => some (-360)
    | "cdt" => some (-300)
    | "mst" => some (-420)
    | "mdt" => some (-360)
    | "pst" => some (-480)
    | "pdt" => some (-420)
    | _ => none

/-- Parse `hh:mm:ss` or `hh:mm`. -/
def parseClock (s : String) : Option (Nat × Nat × Nat) :=
  match (splitCharsOn ':' s.data).map String.mk with
  | [hh, mm, ss] => do
    let h ← parseDigits hh
    let m ← parseDigits mm
    let s2 ← parseDigits ss
    pure (h, m, s2)
  | [hh, mm] => do
    let h ← parseDigits hh
    let m ← parseDigits mm
    pure (h, m, 0)
  | _ => none

/-- Assemble a `PyDateTime` from parsed RFC 2822 fields. -/
def dtOfFields (day mon year hh mi ss : Nat) (off : Int) : PyDateTime :=
  { epochSeconds :=
      daysFromCivil (Int.ofNat year) (Int.ofNat mon) (Int.ofNat day) * 86400 +
        (Int.ofNat hh) * 3600 + (Int.ofNat mi) * 60 + Int.ofNat ss - off * 60,
    offMin := off }

/-- Model of `email.utils.parsedate_to_datetime`: parse
`[weekday,] day month year hh:mm[:ss] [zone]`, raising `ValueError` on any
malformed value (the behaviour of the stdlib function on invalid data). -/
def parsedateToDT (s : String) : Except PyExc PyDateTime :=
  let toks0 := pySplitWS s
  let toks :=
    match toks0 with
    | [] => []
    | t0 :: rest =>
      if (t0.data.getLast? = some ',') || (dayNames.contains (pyLower t0)) then rest else toks0
  let core : List String → Option PyDateTime := fun l =>
    match l with
    | [dd, mon, yyyy, time] => do
      let day ← parseDigits dd
      let m ← monthIndex mon
      let year ← parseDigits yyyy
      let (hh, mi, ss) ← parseClock time
      pure (dtOfFields day m year hh mi ss 0)
    | [dd, mon, yyyy, time, zone] => do
      let day ← parseDigits dd
      let m ← monthIndex mon
      let year ← parseDigits yyyy
      let (hh, mi, ss) ← parseClock time
      let off := (parseTZ zone).getD 0
      pure (dtOfFields day m year hh mi ss off)
    | _ => none
  match core toks with
  | some d => .ok d
  | none => .error (.valueError "Invalid date value or format")

/-! ## File-system model -/

/-- A file system: association list from path to raw bytes. -/
abbrev FS := List (String × Bytes)

/-- Content of a path, if the file exists. -/
def fsRead (fs : FS) (p : String) : Option Bytes :=
  (fs.find? fun e => e.1 == p).map (·.2)

/-- Python `Path.exists()`. -/
def fsExists (fs : FS) (p : String) : Bool := (fsRead fs p).isSome

/-- Write (create or overwrite) a file. -/
def fsWrite : FS → String → Bytes → FS
  | [], p, c => [(p, c)]
  | e :: rest, p, c => if e.1 == p then (p, c) :: rest else e :: fsWrite rest p c

/-- Python `Path.read_text()` (the artifact is ASCII text). -/
def fsReadText (fs : FS) (p : String) : Option String :=
  (fsRead fs p).map bytesToString

/-- Python `Path.write_text(s)`. -/
def fsWriteText (fs : FS) (p : String) (s : String) : FS := fsWrite fs p (strToBytes s)

/-! ## scripts/eml_utils.py -/

/-- Source: `content_checksum(raw, length=16)` — SHA-256 hex digest of the raw
EML content, truncated to its first `length` characters. -/
def content_checksum (raw : Bytes) (length : Nat := 16) : String :=
  String.mk ((sha256hex raw).data.take length)

/-- Model of the stdlib `email` collaborator: the header block is the lines
before the first empty line (line terminators `\r\n` or `\n` removed). -/
def headerLines (raw : Bytes) : List String :=
  ((splitCharsOn '\n' (bytesToString raw).data).map fun l =>
      String.mk (if l.getLast? = some '\r' then l.dropLast else l)).takeWhile
    (fun l => l ≠ "")

/-- Split a header line at its first colon. -/
def splitAtColon : List Char → Option (List Char × List Char)
  | [] => none
  | c :: rest =>
    if c = ':' then some ([], rest)
    else (splitAtColon rest).map fun pr => (c :: pr.1, pr.2)

/-- Model of `email.message_from_bytes(raw).get("Date")`: the value of the
first `Date` header (case-insensitive field name, value whitespace-trimmed),
or `none` when the header is absent. -/
def getDateHeaderVal (raw : Bytes) : Option String :=
  (headerLines raw).findSome? fun line =>
    match splitAtColon line.data with
    | some (name, val) =>
      if pyLower (pyStrip (String.mk name)) = "date" then some (pyStrip (String.mk val))
      else none
    | none => none

/-- Source: `_date_header_to_str(val)` — convert a Date header value to a
cleaned string (newlines to spaces, carriage returns removed, stripped). -/
def date_header_to_str (val : Option String) : String :=
  match val with
  | none => ""
  | some s => pyStrip (removeChar (replaceChar s '\n' ' ') '\r')

/-- Source: `parse_date_from_bytes(raw)` — extract the Date header and parse
it; on a missing header, empty value, or parse exception fall back to `now`
(the current UTC wall-clock time, passed explicitly here). This function is
total: no exception escapes. -/
def parse_date_from_bytes (raw : Bytes) (now : PyDateTime) : PyDateTime :=
  let date_str := date_header_to_str (getDateHeaderVal raw)
  if date_str ≠ "" then
    match parsedateToDT date_str with
    | .ok parsed => astimezoneUTC parsed
    | .error _ => now
  else now


/-- Python set literal built from a list (first occurrence kept). -/
def pyDedup (l : List String) : List String := l.foldl setAdd []

/-! ## scripts/sync_pop3.py

The POP3 wire collaborator is narrowed to the list of raw messages the
server would return: `server.list()` gives their count and `server.retr(i)`
the CRLF-rejoined bytes of message `i`.
-/

namespace SyncPop3

/-- Source: `_parse_date(raw_msg)` — extract the Date header and parse it,
falling back to now only when the header is missing or empty. The parse call
is not guarded, so `email.utils.parsedate_to_datetime` exceptions escape. -/
def _parse_date (raw : Bytes) (now : PyDateTime) : Except PyExc PyDateTime :=
  let date_str := (getDateHeaderVal raw).getD ""
  if date_str ≠ "" then
    match parsedateToDT date_str with
    | .ok parsed => .ok (astimezoneUTC parsed)
    | .error e => .error e
  else .ok now

/-- Source: `_msg_hash(raw_msg)` — short dedup hash (POP3 has no stable
UIDs): `hashlib.sha256(raw_msg).hexdigest()[:16]`. -/
def _msg_hash (raw : Bytes) : String := String.mk ((sha256hex raw).data.take 16)

/-- Source: `_load_synced_hashes(state_file)` — previously synced message
hashes; missing or blank file gives the empty set. -/
def _load_synced_hashes (fs : FS) (state_file : String) : List String :=
  match fsReadText fs state_file with
  | none => []
  | some t =>
    let text := pyStrip t
    if text = "" then []
    else pyDedup ((pySplitNL text).filter fun h => pyStrip h ≠ "")

/-- Source: `_save_synced_hashes(state_file, hashes)` — write the sorted
hash set, one per line. -/
def _save_synced_hashes (fs : FS) (state_file : String) (hashes : List String) : FS :=
  fsWriteText fs state_file (joinNL (pySorted hashes))

/-- Local path of one downloaded POP3 message (lines 97–99 of the source):
`{content_checksum(raw)}-{_msg_hash(raw)}.eml` under the inbox directory. -/
def pop3Filepath (inbox_dir : String) (raw : Bytes) : String :=
  inbox_dir ++ "/" ++ (content_checksum raw ++ "-" ++ _msg_hash raw ++ ".eml")

/-- The per-message download loop of `sync_pop3_account` (lines 88–105):
skip a message whose hash is recorded, otherwise parse its date (which may
raise), write the file unconditionally and record the hash in memory.
`set_file_received_time` only adjusts the stored mtime and is not modelled. -/
def pop3Loop (inbox_dir : String) (now : PyDateTime) :
    List Bytes → FS → List String → Nat → Except PyExc (FS × List String × Nat)
  | [], fs, synced, total => .ok (fs, synced, total)
  | raw :: rest, fs, synced, total =>
    let msg_h := _msg_hash raw
    if synced.contains msg_h then pop3Loop inbox_dir now rest fs synced total
    else
      match _parse_date raw now with
      | .error e => .error e
      | .ok _msg_date =>
        pop3Loop inbox_dir now rest (fsWrite fs (pop3Filepath inbox_dir raw) raw)
          (setAdd synced msg_h) (total + 1)

/-- The account's inbox directory (lines 62–63). -/
def pop3InboxDir (base_dir account_name : String) : String :=
  base_dir ++ "/" ++ account_name ++ "/inbox"

/-- The inbox's sidecar state file path (line 64). -/
def pop3StateFile (base_dir account_name : String) : String :=
  pop3InboxDir base_dir account_name ++ "/.sync_state"

/-- The legacy account-scoped state file path (line 65). -/
def pop3OldState (base_dir account_name : String) : String :=
  base_dir ++ "/" ++ account_name ++ "/.sync_state"

/-- The one-shot legacy migration (lines 66–69): if the folder-scoped state
file does not exist but the old account-scoped one does, copy it forward. -/
def pop3MigrateFS (base_dir account_name : String) (fs0 : FS) : FS :=
  let state_file := pop3StateFile base_dir account_name
  let old_state := pop3OldState base_dir account_name
  if !fsExists fs0 state_file && fsExists fs0 old_state then
    fsWriteText fs0 state_file ((fsReadText fs0 old_state).getD "")
  else fs0

/-- Source: `sync_pop3_account(account_name, cfg, base_dir)` — migrate the
legacy account-scoped state file if needed, load the hash set, run the
download loop over every mailbox message, and save the state once after the
loop. Returns the number of newly downloaded messages. -/
def sync_pop3_account (account_name : String) (remote : List Bytes) (base_dir : String)
    (fs0 : FS) (now : PyDateTime) : Except PyExc (FS × Nat) :=
  let inbox_dir := pop3InboxDir base_dir account_name
  let state_file := pop3StateFile base_dir account_name
  let fs1 := pop3MigrateFS base_dir account_name fs0
  let synced := _load_synced_hashes fs1 state_file
  match pop3Loop inbox_dir now remote fs1 synced 0 with
  | .error e => .error e
  | .ok (fs2, synced2, total_new) => .ok (_save_synced_hashes fs2 state_file synced2, total_new)

/-- The state of `sync_pop3_account` after the first `k` mailbox messages
have been processed and before any further statement runs: the run
interrupted (crashed) mid-loop. -/
def pop3AfterK (account_name : String) (remote : List Bytes) (base_dir : String)
    (fs0 : FS) (now : PyDateTime) (k : Nat) : Except PyExc (FS × List String × Nat) :=
  let inbox_dir := pop3InboxDir base_dir account_name
  let state_file := pop3StateFile base_dir account_name
  let fs1 := pop3MigrateFS base_dir account_name fs0
  let synced := _load_synced_hashes fs1 state_file
  pop3Loop inbox_dir now (remote.take k) fs1 synced 0

end SyncPop3

/-! ## scripts/sync_imap.py

The IMAP wire collaborator is narrowed to the folder listing and, per
folder, selectability, the UID search result and per-UID raw bytes. The
latter three are unreachable in the current source: line 85 of
sync_imap.py evaluates the name `imap_folder_to_dir`, which is defined
nowhere (the module imports only `imap_folder_to_path` from
folder_mapping), so the first loop iteration raises `NameError`.
-/

namespace SyncImap

/-- The `folders` entry of an account config: a plain string or a list. -/
inductive FoldersCfg
  | str (s : String)
  | list (l : List String)

/-- Narrow contract of the IMAP client for one account. -/
structure ImapRemote where
  /-- list_folders(): (flags, name) per folder, the delimiter dropped. -/
  allFolders : List (List String × String)
  /-- select_folder(name, readonly=True) succeeds. Unreachable, see above. -/
  selectOk : String → Bool
  /-- search("ALL"): every UID in the selected folder. Unreachable. -/
  searchAll : String → List Nat
  /-- fetch(uid, RFC822) raw bytes. Unreachable. -/
  fetchMsg : String → Nat → Bytes

/-- Python `int(s)`: optional surrounding whitespace, optional sign, at
least one digit, else `ValueError`. -/
def parsePyInt (s : String) : Except PyExc Int :=
  let t := pyStrip s
  let core : List Char → Option Int := fun l =>
    if l ≠ [] ∧ l.all (fun c => c.isDigit) then
      some (Int.ofNat (l.foldl (fun acc c => 10 * acc + (c.toNat - 48)) 0))
    else none
  match t.data with
  | '+' :: rest => match core rest with
    | some n => .ok n
    | none => .error (.valueError "invalid literal for int")
  | '-' :: rest => match core rest with
    | some n => .ok (-n)
    | none => .error (.valueError "invalid literal for int")
  | l => match core l with
    | some n => .ok n
    | none => .error (.valueError "invalid literal for int")

/-- Python `set.add` for integers. -/
def setAddInt (l : List Int) (x : Int) : List Int :=
  if l.contains x then l else l ++ [x]

/-- Source: `_load_synced_uids(state_file)` — parse each line with `int`,
as a set; a missing or blank file gives the empty set. -/
def _load_synced_uids (fs : FS) (state_file : String) : Except PyExc (List Int) :=
  match fsReadText fs state_file with
  | none => .ok []
  | some t =>
    let text := pyStrip t
    if text = "" then .ok []
    else
      ((pySplitNL text).filter fun u => pyStrip u ≠ "").foldlM
        (fun acc u => (parsePyInt u).map (setAddInt acc)) []

/-- Insertion into an ascending integer list, auxiliary to `_save_synced_uids`. -/
def insertInt (x : Int) : List Int → List Int
  | [] => [x]
  | y :: ys => if x ≤ y then x :: y :: ys else y :: insertInt x ys

/-- Python `sorted` on integers. -/
def pySortedInt (l : List Int) : List Int := l.foldr insertInt []

/-- Source: `_save_synced_uids(state_file, uids)` — write the sorted UID
set, one decimal per line. -/
def _save_synced_uids (fs : FS) (state_file : String) (uids : List Int) : FS :=
  fsWriteText fs state_file (joinNL ((pySortedInt uids).map toString))

/-- Folder resolution (lines 65–82): the literal config list (or singleton),
or auto-discovery excluding folders with a `\Noselect`-style flag when the
config is `all` or a list containing `"all"`. -/
def resolveFolders (folders_cfg : FoldersCfg) (remote : ImapRemote) : List String :=
  let isAll :=
    match folders_cfg with
    | .str s => s == "all"
    | .list l => l.contains "all"
  if isAll then
    (remote.allFolders.filter fun fl =>
      !(fl.1.any fun f => strContains (pyLower f) "noselect")).map (·.2)
  else
    match folders_cfg with
    | .list l => l
    | .str s => [s]

/-- Body of the per-folder loop (lines 84–139). Its first statement,
line 85, is `folder_dir = imap_folder_to_dir(folder)`; the name
`imap_folder_to_dir` is not defined in sync_imap.py or its imports, so
Python raises `NameError` here, before the folder is selected and before
any state file is read or written. -/
def imapFolderStep (_acc : FS × Nat) (_folder : String) : Except PyExc (FS × Nat) :=
  .error (.nameError "name 'imap_folder_to_dir' is not defined")

/-- The folder loop: run the body over each folder, propagating exceptions. -/
def imapFoldersRun : List String → (FS × Nat) → Except PyExc (FS × Nat)
  | [], acc => .ok acc
  | f :: rest, acc =>
    match imapFolderStep acc f with
    | .error e => .error e
    | .ok acc2 => imapFoldersRun rest acc2

/-- Source: `sync_imap_account(account_name, cfg, base_dir)` — connect,
resolve the folder set and run the per-folder loop. With a nonempty folder
set the first iteration raises `NameError` (see `imapFolderStep`); with an
empty folder set the function returns 0 having touched nothing. -/
def sync_imap_account (account_name : String) (folders_cfg : FoldersCfg)
    (remote : ImapRemote) (base_dir : String) (fs0 : FS) : Except PyExc (FS × Nat) :=
  let _account_dir := base_dir ++ "/" ++ account_name
  let folders := resolveFolders folders_cfg remote
  imapFoldersRun folders (fs0, 0)

end SyncImap

/-! ## scripts/sync_gmail_api.py

The Gmail API collaborator is narrowed to the paginated message-id listing
per label and the raw bytes and internal date per message id (the OAuth
credential dance of `_get_gmail_service` is an external concern).
-/

namespace SyncGmail

/-- Narrow contract of the Gmail API service for one account. -/
structure GmailRemote where
  /-- users().messages().list(labelIds=[l], maxResults=500) pages. -/
  pages : String → List (List String)
  /-- users().messages().get(id=mid, format="raw") decoded bytes. -/
  rawOf : String → Bytes
  /-- internalDate of a message, in milliseconds. -/
  internalDate : String → Nat

/-- Source: `GMAIL_LABEL_MAP` — Gmail label IDs to local dir names. -/
def GMAIL_LABEL_MAP : List (String × String) :=
  [("INBOX", "inbox"), ("SENT", "sent"), ("DRAFT", "draft"),
   ("TRASH", "trash"), ("SPAM", "spam"), ("UNREAD", "unread")]

/-- Source line 94: mapped dir name, else `label_id.lower().replace("-", "_")`. -/
def labelFolderDir (label_id : String) : String :=
  match GMAIL_LABEL_MAP.lookup label_id with
  | some d => d
  | none => replaceChar (pyLower label_id) '-' '_'

/-- Source: `_load_synced_ids(state_file)` — previously synced message ids;
missing or blank file gives the empty set. -/
def _load_synced_ids (fs : FS) (state_file : String) : List String :=
  match fsReadText fs state_file with
  | none => []
  | some t =>
    let text := pyStrip t
    if text = "" then []
    else pyDedup ((pySplitNL text).filter fun mid => pyStrip mid ≠ "")

/-- Source: `_save_synced_ids(state_file, ids)` — write the sorted id set. -/
def _save_synced_ids (fs : FS) (state_file : String) (ids : List String) : FS :=
  fsWriteText fs state_file (joinNL (pySorted ids))

/-- Local path of one downloaded Gmail message (lines 152–154):
`{content_checksum(raw_bytes)}-{mid}.eml` under the label's folder path. -/
def gmailFilepath (folder_path : String) (raw : Bytes) (mid : String) : String :=
  folder_path ++ "/" ++ (content_checksum raw ++ "-" ++ mid ++ ".eml")

/-- The per-message download loop (lines 139–163): fetch, write the file
unconditionally, record the id, and persist the state every 100 downloads
(`total_new` is the account-wide counter). `msg_date` is derived from
`internalDate` and only used for the stored mtime, which is not modelled. -/
def gmailDownLoop (remote : GmailRemote) (folder_path state_file : String) :
    List String → FS → List String → Nat → FS × List String × Nat
  | [], fs, synced, total => (fs, synced, total)
  | mid :: rest, fs, synced, total =>
    let raw := remote.rawOf mid
    let fs2 := fsWrite fs (gmailFilepath folder_path raw mid) raw
    let synced2 := setAdd synced mid
    let total2 := total + 1
    let fs3 := if total2 % 100 = 0 then _save_synced_ids fs2 state_file synced2 else fs2
    gmailDownLoop remote folder_path state_file rest fs3 synced2 total2

/-- The delta-and-download part of the per-label body (lines 127–165):
compute the new ids against the loaded set; if none, skip the label
entirely (`continue`), else run the download loop and save the state at
label completion. -/
def gmailLabelBody (remote : GmailRemote) (folder_path : String)
    (fs1 : FS) (synced1 : List String) (total0 : Nat) (all_msg_ids : List String) : FS × Nat :=
  let state_file := folder_path ++ "/.sync_state"
  let new_ids := all_msg_ids.filter fun mid => !synced1.contains mid
  if new_ids.isEmpty then (fs1, total0)
  else
    let r := gmailDownLoop remote folder_path state_file new_ids fs1 synced1 total0
    (_save_synced_ids r.1 state_file r.2.1, r.2.2)

/-- The per-label body of `sync_gmail_api_account` (lines 93–165): resolve
the dir, load state (with the one-shot legacy migration for the inbox),
page through the full id listing, then delegate to `gmailLabelBody`. -/
def gmailLabelStep (remote : GmailRemote) (account_dir : String)
    (acc : FS × Nat) (label_id : String) : FS × Nat :=
  let fs0 := acc.1
  let total0 := acc.2
  let folder_dir := labelFolderDir label_id
  let folder_path := account_dir ++ "/" ++ folder_dir
  let state_file := folder_path ++ "/.sync_state"
  let synced0 := _load_synced_ids fs0 state_file
  let old_state := account_dir ++ "/.sync_state"
  let migrate := folder_dir = "inbox" && !fsExists fs0 state_file && fsExists fs0 old_state
  let fs1 := if migrate then fsWriteText fs0 state_file ((fsReadText fs0 old_state).getD "") else fs0
  let synced1 := if migrate then _load_synced_ids fs1 state_file else synced0
  let all_msg_ids := (remote.pages label_id).flatten
  gmailLabelBody remote folder_path fs1 synced1 total0 all_msg_ids

/-- Source: `sync_gmail_api_account(account_name, cfg, base_dir, secrets_dir)`
— run the label loop over the configured labels, returning the number of
newly downloaded messages. -/
def sync_gmail_api_account (account_name : String) (labels : List String)
    (remote : GmailRemote) (base_dir : String) (fs0 : FS) : FS × Nat :=
  let account_dir := base_dir ++ "/" ++ account_name
  labels.foldl (gmailLabelStep remote account_dir) (fs0, 0)

end SyncGmail

/-! ## scripts/sync_api.py

The `_SyncState` tracker: the shared per-account status map and the trigger
endpoint. All map accesses happen under one lock in the source; here each
entry point is a single atomic function on the map.
-/

namespace SyncApi

/-- One account's status record (sync_api.py lines 49–57). -/
structure StatusRec where
  syncing : Bool
  last_sync : Option Nat
  last_error : Option String
  new_messages : Int
  deriving DecidableEq, Repr

/-- Initial status of every account. -/
def initStatus : StatusRec :=
  { syncing := false, last_sync := none, last_error := none, new_messages := 0 }

/-- The `_status` dict, keyed by account name. -/
abbrev StatusMap := List (String × StatusRec)

/-- Status map at `_SyncState` construction. -/
def initStatusMap (accounts : List String) : StatusMap :=
  accounts.map fun n => (n, initStatus)

/-- Read one account's status (the dict entry; accounts are always present). -/
def getStatus (st : StatusMap) (name : String) : StatusRec :=
  ((st.find? fun e => e.1 == name).map (·.2)).getD initStatus

/-- Update one account's status in place. -/
def setStatus (st : StatusMap) (name : String) (f : StatusRec → StatusRec) : StatusMap :=
  st.map fun e => if e.1 == name then (e.1, f e.2) else e

/-- Result of one `trigger_sync` call: the HTTP status, the `accounts`
field of the response body, the shared status map afterwards, and the
target list handed to a freshly spawned `_run_sync` thread (if any). -/
structure TriggerOut where
  code : Nat
  respAccounts : List String
  status : StatusMap
  spawned : Option (List String)
  deriving DecidableEq

/-- Source: `_SyncState.trigger_sync(account_name)` (lines 70–88) — resolve
the target list (one named account, or every account), reject the whole
request with 409 if ANY target is already syncing (starting none of them),
otherwise mark every target syncing, clear its error, and hand the full
target list to one background `_run_sync` thread. -/
def trigger_sync (accounts : List String) (st : StatusMap)
    (account_name : Option String) : TriggerOut :=
  let runT : List String → TriggerOut := fun targets =>
    let already := targets.filter fun n => (getStatus st n).syncing
    if !already.isEmpty then
      { code := 409, respAccounts := already, status := st, spawned := none }
    else
      let st2 := targets.foldl
        (fun m n => setStatus m n fun r => { r with syncing := true, last_error := none }) st
      { code := 202, respAccounts := targets, status := st2, spawned := some targets }
  match account_name with
  | some a =>
    if accounts.contains a then runT [a]
    else { code := 404, respAccounts := [], status := st, spawned := none }
  | none => runT accounts

/-- Completion handling for one account inside `_run_sync` (lines 93–105):
on success record the count (`run_sync` returns an int, so the
`isinstance` guard keeps it), the sync time and clear the error; on failure
record only the error text and clear the syncing flag. -/
def runSyncOne (st : StatusMap) (name : String) (result : Except String Int)
    (now : Nat) : StatusMap :=
  match result with
  | .ok count =>
    setStatus st name fun r =>
      { r with syncing := false, last_sync := some now, last_error := none,
               new_messages := count }
  | .error exc =>
    setStatus st name fun r => { r with syncing := false, last_error := some exc }

/-- Source: `_SyncState._run_sync(targets)` — one worker thread processes
the targets sequentially, in list order. -/
def _run_sync (st : StatusMap) (targets : List String)
    (results : String → Except String Int) (now : Nat) : StatusMap :=
  targets.foldl (fun m n => runSyncOne m n (results n) now) st

end SyncApi

/-! ## scripts/daemon.py — the two sync-starting paths

The daemon runs the scheduler loop in the main thread and serves the
trigger API from daemon threads. `sysTrigger` is the on-demand path (it
consults the status map); `sysSchedTick` is the scheduler path (lines
104–107: `schedule.every(...).do(sync_account, cfg=cfg)` and the immediate
`sync_account(cfg)`), which calls the adapter directly and never consults
the API's status map. `inFlight` counts the adapter invocations currently
running per account.
-/

namespace DaemonSys

/-- Observable daemon state: the API status map plus, per account, the
number of adapter invocations currently in flight. -/
structure SysState where
  status : SyncApi.StatusMap
  inFlight : List (String × Nat)

/-- Number of in-flight adapter invocations for an account. -/
def getInFlight (s : SysState) (n : String) : Nat :=
  ((s.inFlight.find? fun e => e.1 == n).map (·.2)).getD 0

/-- Record one more in-flight adapter invocation for an account. -/
def bumpInFlight (l : List (String × Nat)) (n : String) : List (String × Nat) :=
  if l.any (fun e => e.1 == n) then l.map (fun e => if e.1 == n then (e.1, e.2 + 1) else e)
  else l ++ [(n, 1)]

/-- Daemon startup state for the configured accounts. -/
def initSys (accounts : List String) : SysState :=
  { status := SyncApi.initStatusMap accounts, inFlight := accounts.map fun n => (n, 0) }

/-- On-demand trigger of one account: `trigger_sync` runs under the lock;
when it spawns a `_run_sync` thread, that thread begins the account's
adapter invocation. Returns the new state and the HTTP code. -/
def sysTrigger (accounts : List String) (s : SysState) (a : String) : SysState × Nat :=
  let out := SyncApi.trigger_sync accounts s.status (some a)
  match out.spawned with
  | some _ => ({ status := out.status, inFlight := bumpInFlight s.inFlight a }, out.code)
  | none => ({ s with status := out.status }, out.code)

/-- Scheduler tick for one account (daemon.py lines 104–107): call
`sync_account`, hence `run_sync`, hence the adapter, directly — without
reading or writing the API status map. -/
def sysSchedTick (s : SysState) (a : String) : SysState :=
  { s with inFlight := bumpInFlight s.inFlight a }

end DaemonSys

/-- An identifier in canonical form: nonempty, no whitespace characters. -/
abbrev CleanId (s : String) : Prop := s.data ≠ [] ∧ ∀ c ∈ s.data, pyIsSpace c = false

/-! ## Concrete sample inputs and projections (auxiliary definitions) -/

deriving instance DecidableEq for Except

def msgNoDateA : Bytes := strToBytes "Subject: a\r\n\r\nhello"

def msgNoDateB : Bytes := strToBytes "Subject: b\r\n\r\nworld"

def msgBadDate : Bytes := strToBytes "Date: garbage\r\n\r\nx"

def nowUTC : PyDateTime := { epochSeconds := 1700000000, offMin := 0 }

def runFS (r : Except PyExc (FS × Nat)) : FS :=
  match r with
  | .ok p => p.1
  | .error _ => []

def runCount (r : Except PyExc (FS × Nat)) : Nat :=
  match r with
  | .ok p => p.2
  | .error _ => 0

def runOk (r : Except PyExc (FS × Nat)) : Bool :=
  match r with
  | .ok _ => true
  | .error _ => false

def afterFS (r : Except PyExc (FS × List String × Nat)) : FS :=
  match r with
  | .ok p => p.1
  | .error _ => []

def afterCount (r : Except PyExc (FS × List String × Nat)) : Nat :=
  match r with
  | .ok p => p.2.2
  | .error _ => 0

def afterSynced (r : Except PyExc (FS × List String × Nat)) : List String :=
  match r with
  | .ok p => p.2.1
  | .error _ => []

def afterOk (r : Except PyExc (FS × List String × Nat)) : Bool :=
  match r with
  | .ok _ => true
  | .error _ => false

def imapScenarioRemote : SyncImap.ImapRemote :=
  { allFolders := [([], "INBOX")],
    selectOk := fun _ => true,
    searchAll := fun f => if f == "INBOX" then [1, 2, 3] else [],
    fetchMsg := fun _ uid => strToBytes ("Subject: m" ++ toString uid ++ "\r\n\r\nbody") }

def gmailWitnessRemote : SyncGmail.GmailRemote :=
  { pages := fun _ => [["idA"]],
    rawOf := fun _ => msgNoDateA,
    internalDate := fun _ => 0 }

def stC8 : SyncApi.StatusMap :=
  SyncApi.setStatus (SyncApi.initStatusMap ["acme", "beta"]) "acme"
    (fun r => { r with syncing := true })

def c5CorruptFS : FS := [(SyncPop3.pop3StateFile "emails" "acme", strToBytes "a\n b")]

/-! ## Digest and date-parser sanity checks against published vectors -/

example : sha256hex [] = "e3b0c44298fc1c149afbf4c8996fb92427ae41e4649b934ca495991b7852b855" := by
  decide

example : sha256hex [97, 98, 99] =
    "ba7816bf8f01cfea414140de5dae2223b00361a396177a9cb410ff61f20015ad" := by decide

example : parsedateToDT "Mon, 9 Oct 2023 12:00:00 +0000" =
    .ok { epochSeconds := 1696852800, offMin := 0 } := by rfl

example : (parsedateToDT "garbage").isOk = false := by rfl

/-! ## Helper lemmas: strings and the file-system model -/

theorem bytesToString_strToBytes (s : String) : bytesToString (strToBytes s) = s := by
  unfold bytesToString strToBytes
  rw [List.map_map]
  have h : (Char.ofNat ∘ Char.toNat) = id := funext fun c => Char.ofNat_toNat c
  rw [h, List.map_id]

theorem fsRead_fsWrite_self (fs : FS) (p : String) (c : Bytes) :
    fsRead (fsWrite fs p c) p = some c := by
  induction fs with
  | nil => simp [fsWrite, fsRead, List.find?]
  | cons e rest ih =>
    by_cases h : e.1 == p
    · simp [fsWrite, h, fsRead, List.find?]
    · simpa [fsWrite, h, fsRead, List.find?] using ih

theorem fsRead_fsWrite_ne (fs : FS) (p q : String) (c : Bytes) (h : q ≠ p) :
    fsRead (fsWrite fs p c) q = fsRead fs q := by
  have hpq : (p == q) = false := beq_eq_false_iff_ne.mpr fun hh => h hh.symm
  induction fs with
  | nil => simp [fsWrite, fsRead, List.find?, hpq]
  | cons e rest ih =>
    by_cases he : e.1 == p
    · have he' : e.1 = p := by simpa [beq_iff_eq] using he
      simp [fsWrite, he, fsRead, List.find?, he', hpq]
    · by_cases hq : e.1 == q
      · simp [fsWrite, he, fsRead, List.find?, hq]
      · simp only [fsWrite, he, Bool.false_eq_true, if_false]
        simp [fsRead, List.find?, hq] at ih ⊢
        exact ih

theorem fsExists_fsWrite_self (fs : FS) (p : String) (c : Bytes) :
    fsExists (fsWrite fs p c) p = true := by
  simp [fsExists, fsRead_fsWrite_self]

theorem fsExists_fsWrite_ne (fs : FS) (p q : String) (c : Bytes) (h : q ≠ p) :
    fsExists (fsWrite fs p c) q = fsExists fs q := by
  simp [fsExists, fsRead_fsWrite_ne fs p q c h]

theorem fsExists_fsWrite_mono (fs : FS) (p q : String) (c : Bytes)
    (h : fsExists fs q = true) : fsExists (fsWrite fs p c) q = true := by
  by_cases hq : q = p
  · subst hq; exact fsExists_fsWrite_self fs q c
  · rw [fsExists_fsWrite_ne fs p q c hq]; exact h

theorem str_ne_of_getLast_ne {s t : String}
    (h : s.data.getLast? ≠ t.data.getLast?) : s ≠ t := by
  intro he
  exact h (by rw [he])

theorem data_ne_nil_of_append_right {a b : String} (h : b.data ≠ []) :
    (a ++ b).data ≠ [] := by
  rw [String.data_append]
  intro he
  rcases List.append_eq_nil.mp he with ⟨-, h2⟩
  exact h h2

theorem getLast_append_right (a b : String) (h : b.data ≠ []) :
    (a ++ b).data.getLast? = b.data.getLast? := by
  rw [String.data_append]
  exact List.getLast?_append_of_ne_nil a.data h

theorem emlPath_getLast (a x : String) :
    (a ++ (x ++ ".eml")).data.getLast? = some 'l' := by
  rw [getLast_append_right _ _ (data_ne_nil_of_append_right (by decide)),
    getLast_append_right _ _ (by decide)]
  decide

theorem statePath_getLast (d : String) :
    (d ++ "/.sync_state").data.getLast? = some 'e' := by
  rw [getLast_append_right _ _ (by decide)]
  decide

/-! ## Helper lemmas: split, join, strip, sort -/

theorem splitCharsOn_no_sep (sep : Char) :
    ∀ l : List Char, sep ∉ l → splitCharsOn sep l = [l] := by
  intro l
  induction l with
  | nil => intro _; rfl
  | cons c rest ih =>
    intro h
    have hc : c ≠ sep := fun he => h (he ▸ List.mem_cons_self c rest)
    have hrest : sep ∉ rest := fun hm => h (List.mem_cons_of_mem c hm)
    simp [splitCharsOn, ih hrest, hc]

theorem splitCharsOn_ne_nil (sep : Char) (l : List Char) : splitCharsOn sep l ≠ [] := by
  induction l with
  | nil => simp [splitCharsOn]
  | cons c rest ih =>
    simp only [splitCharsOn]
    rcases h : splitCharsOn sep rest with _ | ⟨g, gs⟩
    · exact absurd h ih
    · by_cases hc : c = sep <;> simp [hc]

theorem splitCharsOn_append (sep : Char) :
    ∀ l1 l2 : List Char, sep ∉ l1 →
      splitCharsOn sep (l1 ++ sep :: l2) = l1 :: splitCharsOn sep l2 := by
  intro l1
  induction l1 with
  | nil =>
    intro l2 _
    simp only [List.nil_append, splitCharsOn]
    rcases h : splitCharsOn sep l2 with _ | ⟨g, gs⟩
    · exact absurd h (splitCharsOn_ne_nil sep l2)
    · simp
  | cons c rest ih =>
    intro l2 h
    have hc : c ≠ sep := fun he => h (he ▸ List.mem_cons_self c rest)
    have hrest : sep ∉ rest := fun hm => h (List.mem_cons_of_mem c hm)
    simp only [List.cons_append, splitCharsOn, List.append_eq]
    rw [ih l2 hrest]
    simp [hc]

theorem pySplitNL_joinNL :
    ∀ parts : List String, parts ≠ [] → (∀ x ∈ parts, '\n' ∉ x.data) →
      pySplitNL (joinNL parts) = parts := by
  intro parts
  induction parts with
  | nil => intro h; exact absurd rfl h
  | cons x rest ih =>
    intro _ hclean
    cases rest with
    | nil =>
      have hx : '\n' ∉ x.data := hclean x (List.mem_cons_self x [])
      simp [joinNL, pySplitNL, splitCharsOn_no_sep '\n' x.data hx]
    | cons y t =>
      have hx : '\n' ∉ x.data := hclean x (List.mem_cons_self x _)
      have hdata : (x ++ "\n" ++ joinNL (y :: t)).data =
          x.data ++ '\n' :: (joinNL (y :: t)).data := by
        rw [String.data_append, String.data_append]
        simp
      have hrest : ∀ z ∈ y :: t, '\n' ∉ z.data := fun z hz =>
        hclean z (List.mem_cons_of_mem x hz)
      have hih := ih (by simp) hrest
      simp only [joinNL, pySplitNL, hdata, splitCharsOn_append '\n' x.data _ hx, List.map_cons]
      simp only [pySplitNL] at hih
      rw [hih]

theorem mem_setAdd (l : List String) (x y : String) :
    y ∈ setAdd l x ↔ y ∈ l ∨ y = x := by
  unfold setAdd
  by_cases h : x ∈ l
  · have hb : l.contains x = true := List.elem_eq_true_of_mem h
    simp only [hb, if_true]
    constructor
    · exact Or.inl
    · rintro (hy | rfl)
      · exact hy
      · exact h
  · simp [h, List.mem_append]

theorem mem_pyDedup (l : List String) (x : String) : x ∈ pyDedup l ↔ x ∈ l := by
  have key : ∀ (l : List String) (acc : List String),
      x ∈ l.foldl setAdd acc ↔ x ∈ acc ∨ x ∈ l := by
    intro l
    induction l with
    | nil => intro acc; simp
    | cons c rest ih =>
      intro acc
      rw [List.foldl_cons, ih (setAdd acc c), mem_setAdd]
      constructor
      · rintro ((h | h) | h)
        · exact Or.inl h
        · exact Or.inr (h ▸ List.mem_cons_self c rest)
        · exact Or.inr (List.mem_cons_of_mem c h)
      · rintro (h | h)
        · exact Or.inl (Or.inl h)
        · rcases List.mem_cons.mp h with h | h
          · exact Or.inl (Or.inr h)
          · exact Or.inr h
  unfold pyDedup
  rw [key l []]
  simp

theorem mem_insertStr (x y : String) : ∀ l : List String, y ∈ insertStr x l ↔ y ∈ l ∨ y = x := by
  intro l
  induction l with
  | nil => simp [insertStr, eq_comm]
  | cons c rest ih =>
    unfold insertStr
    by_cases h : strLeB x c
    · simp [h, eq_comm]
      tauto
    · simp [h, ih]
      tauto

theorem mem_pySorted (l : List String) (x : String) : x ∈ pySorted l ↔ x ∈ l := by
  unfold pySorted
  induction l with
  | nil => simp
  | cons c rest ih =>
    rw [List.foldr_cons, mem_insertStr]
    simp [ih]
    tauto

/-! ## Helper lemmas: strip, canonical state text round trip -/

theorem dropWhile_eq_self_of_all {p : Char → Bool} (l : List Char)
    (h : ∀ c ∈ l, p c = false) : l.dropWhile p = l := by
  cases l with
  | nil => rfl
  | cons c rest =>
    rw [List.dropWhile_cons_of_neg (by simp [h c (List.mem_cons_self c rest)])]

theorem pyStrip_eq_self_of_clean (s : String) (h : ∀ c ∈ s.data, pyIsSpace c = false) :
    pyStrip s = s := by
  unfold pyStrip
  rw [dropWhile_eq_self_of_all s.data h,
    dropWhile_eq_self_of_all s.data.reverse (fun c hc => h c (List.mem_reverse.mp hc)),
    List.reverse_reverse]

theorem pyStrip_eq_self_of_ends (s : String) (c1 c2 : Char)
    (h1 : s.data.head? = some c1) (hp1 : pyIsSpace c1 = false)
    (h2 : s.data.getLast? = some c2) (hp2 : pyIsSpace c2 = false) :
    pyStrip s = s := by
  unfold pyStrip
  cases hd : s.data with
  | nil => rw [hd] at h1; simp at h1
  | cons c rest =>
    have hc : c = c1 := by rw [hd] at h1; simpa using h1
    have hdw1 : List.dropWhile pyIsSpace (c :: rest) = c :: rest :=
      List.dropWhile_cons_of_neg (by simp [hc, hp1])
    have hrev : (c :: rest).reverse.head? = some c2 := by
      rw [List.head?_reverse, ← hd, h2]
    rcases hrv : (c :: rest).reverse with _ | ⟨d, t⟩
    · simp at hrv
    · have hd2 : d = c2 := by rw [hrv] at hrev; simpa using hrev
      have hdw2 : List.dropWhile pyIsSpace (d :: t) = d :: t :=
        List.dropWhile_cons_of_neg (by simp [hd2, hp2])
      rw [hdw1, hrv, hdw2, ← hrv, List.reverse_reverse, ← hd]

theorem ends_of_all_clean (l : List Char) (hne : l ≠ [])
    (h : ∀ c ∈ l, pyIsSpace c = false) :
    ∃ c1 c2, l.head? = some c1 ∧ pyIsSpace c1 = false ∧
      l.getLast? = some c2 ∧ pyIsSpace c2 = false := by
  cases l with
  | nil => exact absurd rfl hne
  | cons c rest =>
    refine ⟨c, (c :: rest).getLast (by simp), rfl, h c (List.mem_cons_self c rest), ?_, ?_⟩
    · exact List.getLast?_eq_getLast (c :: rest) (by simp)
    · exact h _ (List.getLast_mem (by simp))

theorem joinNL_ends :
    ∀ parts : List String, (∀ x ∈ parts, CleanId x) → parts ≠ [] →
      ∃ c1 c2, (joinNL parts).data.head? = some c1 ∧ pyIsSpace c1 = false ∧
        (joinNL parts).data.getLast? = some c2 ∧ pyIsSpace c2 = false := by
  intro parts
  induction parts with
  | nil => intro _ h; exact absurd rfl h
  | cons x rest ih =>
    intro hc _
    cases rest with
    | nil =>
      obtain ⟨hne, hcl⟩ := hc x (List.mem_cons_self x [])
      exact ends_of_all_clean x.data hne hcl
    | cons y t =>
      obtain ⟨hxne, hxcl⟩ := hc x (List.mem_cons_self x _)
      obtain ⟨c1, c2, hh1, hp1, hh2, hp2⟩ :=
        ih (fun z hz => hc z (List.mem_cons_of_mem x hz)) (by simp)
      have hdata : (joinNL (x :: y :: t)).data =
          x.data ++ '\n' :: (joinNL (y :: t)).data := by
        show (x ++ "\n" ++ joinNL (y :: t)).data = _
        rw [String.data_append, String.data_append]
        simp
      rcases hx : x.data with _ | ⟨a, b⟩
      · exact absurd hx hxne
      · refine ⟨a, c2, ?_, ?_, ?_, hp2⟩
        · rw [hdata, hx]
          simp
        · exact hxcl a (by rw [hx]; exact List.mem_cons_self a b)
        · rw [hdata, List.getLast?_append_of_ne_nil x.data (by simp)]
          cases hJ : (joinNL (y :: t)).data with
          | nil => rw [hJ] at hh1; simp at hh1
          | cons d ds => rw [List.getLast?_cons_cons, ← hJ, hh2]

theorem pyStrip_joinNL (parts : List String) (hc : ∀ x ∈ parts, CleanId x) :
    pyStrip (joinNL parts) = joinNL parts := by
  cases hp : parts with
  | nil => rfl
  | cons x rest =>
    obtain ⟨c1, c2, h1, hp1, h2, hp2⟩ := joinNL_ends (x :: rest) (hp ▸ hc) (by simp)
    exact pyStrip_eq_self_of_ends _ c1 c2 h1 hp1 h2 hp2

theorem clean_no_nl {x : String} (h : CleanId x) : '\n' ∉ x.data := by
  intro hm
  have := h.2 '\n' hm
  simp [pyIsSpace] at this

theorem string_ne_empty_of_data {s : String} (h : s.data ≠ []) : s ≠ "" := by
  intro he
  rw [he] at h
  exact h rfl

theorem fsReadText_fsWriteText_self (fs : FS) (p : String) (t : String) :
    fsReadText (fsWriteText fs p t) p = some t := by
  unfold fsReadText fsWriteText
  rw [fsRead_fsWrite_self]
  simp [bytesToString_strToBytes]

theorem load_save_mem (fs : FS) (p : String) (l : List String)
    (hc : ∀ x ∈ l, CleanId x) (x : String) :
    x ∈ SyncPop3._load_synced_hashes (SyncPop3._save_synced_hashes fs p l) p ↔ x ∈ l := by
  unfold SyncPop3._save_synced_hashes SyncPop3._load_synced_hashes
  rw [fsReadText_fsWriteText_self]
  cases hl : l with
  | nil => simp [pySorted, joinNL, pyStrip, pyDedup]
  | cons a rest =>
    have hsc : ∀ z ∈ pySorted l, CleanId z := fun z hz => hc z ((mem_pySorted l z).mp hz)
    have hsne : pySorted l ≠ [] := by
      have : a ∈ pySorted l := (mem_pySorted l a).mpr (hl ▸ List.mem_cons_self a rest)
      exact List.ne_nil_of_mem this
    rw [← hl]
    have hstrip := pyStrip_joinNL (pySorted l) hsc
    simp only [hstrip]
    have htne : joinNL (pySorted l) ≠ "" := by
      obtain ⟨c1, c2, h1, _, _, _⟩ := joinNL_ends (pySorted l) hsc hsne
      apply string_ne_empty_of_data
      intro he
      rw [he] at h1
      simp at h1
    rw [if_neg htne]
    rw [pySplitNL_joinNL (pySorted l) hsne (fun z hz => clean_no_nl (hsc z hz))]
    rw [List.filter_eq_self.mpr]
    · rw [mem_pyDedup, mem_pySorted]
    · intro z hz
      have := hsc z hz
      have hzs : pyStrip z = z := pyStrip_eq_self_of_clean z this.2
      simp [hzs]
      exact string_ne_empty_of_data this.1

/-! ## Helper lemmas: hex digests are clean identifiers -/

theorem sha256Words_length (m : Bytes) : (sha256Words m).length = 8 := by
  unfold sha256Words
  have key : ∀ (bs : List Bytes) (hs : List Nat), hs.length = 8 →
      (bs.foldl compressBlock hs).length = 8 := by
    intro bs
    induction bs with
    | nil => intro hs h; exact h
    | cons b rest ih => intro hs h; exact ih (compressBlock hs b) rfl
  exact key _ shaH0 rfl

theorem mem_wordToHex {c : Char} {x : Nat} (h : c ∈ wordToHex x) :
    ∃ k, k < 16 ∧ c = hexDigit k := by
  simp only [wordToHex, List.mem_cons, List.mem_singleton, List.not_mem_nil, or_false] at h
  rcases h with h | h | h | h | h | h | h | h <;>
    exact ⟨_, Nat.mod_lt _ (by norm_num), h⟩

theorem hexDigit_not_space : ∀ k, k < 16 → pyIsSpace (hexDigit k) = false := by decide

theorem sha256hex_chars {c : Char} {m : Bytes} (h : c ∈ (sha256hex m).data) :
    ∃ k, k < 16 ∧ c = hexDigit k := by
  have h2 : c ∈ (sha256Words m).flatMap wordToHex := h
  rcases List.mem_flatMap.mp h2 with ⟨w, _, hc⟩
  exact mem_wordToHex hc

theorem sha256hex_data_ne_nil (m : Bytes) : (sha256hex m).data ≠ [] := by
  rcases hw : sha256Words m with _ | ⟨w, ws⟩
  · have hl := sha256Words_length m
    rw [hw] at hl
    simp at hl
  · show (sha256Words m).flatMap wordToHex ≠ []
    rw [hw]
    simp [wordToHex]

theorem msg_hash_clean (raw : Bytes) : CleanId (SyncPop3._msg_hash raw) := by
  unfold SyncPop3._msg_hash
  constructor
  · show (sha256hex raw).data.take 16 ≠ []
    have hne := sha256hex_data_ne_nil raw
    intro he
    rcases List.take_eq_nil_iff.mp he with h | h
    · exact absurd h (by norm_num)
    · exact hne h
  · intro c hc
    have hm : c ∈ (sha256hex raw).data := List.mem_of_mem_take hc
    rcases sha256hex_chars hm with ⟨k, hk, rfl⟩
    exact hexDigit_not_space k hk

theorem pop3Filepath_getLast (d : String) (raw : Bytes) :
    (SyncPop3.pop3Filepath d raw).data.getLast? = some 'l' := by
  unfold SyncPop3.pop3Filepath
  exact emlPath_getLast (d ++ "/") (content_checksum raw ++ "-" ++ SyncPop3._msg_hash raw)

/-! ## Helper lemmas: the POP3 download loop -/

theorem pop3Loop_skip_all (d : String) (now : PyDateTime) :
    ∀ (msgs : List Bytes) (fs : FS) (synced : List String) (t : Nat),
      (∀ m ∈ msgs, synced.contains (SyncPop3._msg_hash m) = true) →
      SyncPop3.pop3Loop d now msgs fs synced t = .ok (fs, synced, t) := by
  intro msgs
  induction msgs with
  | nil => intro fs synced t _; rfl
  | cons raw rest ih =>
    intro fs synced t h
    have hc : synced.contains (SyncPop3._msg_hash raw) = true :=
      h raw (List.mem_cons_self raw rest)
    simp only [SyncPop3.pop3Loop, hc, if_true]
    exact ih fs synced t fun m hm => h m (List.mem_cons_of_mem raw hm)

theorem pop3Loop_ok_facts (d : String) (now : PyDateTime) :
    ∀ (msgs : List Bytes) (fs : FS) (synced : List String) (t : Nat)
      (fs' : FS) (synced' : List String) (t' : Nat),
      SyncPop3.pop3Loop d now msgs fs synced t = .ok (fs', synced', t') →
      (∀ x ∈ synced, x ∈ synced') ∧
      (∀ m ∈ msgs, SyncPop3._msg_hash m ∈ synced') ∧
      ((∀ x ∈ synced, CleanId x) → ∀ x ∈ synced', CleanId x) ∧
      (∀ P : String, P.data.getLast? ≠ some 'l' → fsRead fs' P = fsRead fs P) := by
  intro msgs
  induction msgs with
  | nil =>
    intro fs synced t fs' synced' t' h
    simp only [SyncPop3.pop3Loop, Except.ok.injEq, Prod.mk.injEq] at h
    obtain ⟨h1, h2, h3⟩ := h
    subst h1
    subst h2
    exact ⟨fun x hx => hx, by simp, fun hc => hc, fun P _ => rfl⟩
  | cons raw rest ih =>
    intro fs synced t fs' synced' t' h
    by_cases hm : synced.contains (SyncPop3._msg_hash raw) = true
    · simp only [SyncPop3.pop3Loop, hm, if_true] at h
      obtain ⟨f1, f2, f3, f4⟩ := ih fs synced t fs' synced' t' h
      refine ⟨f1, ?_, f3, f4⟩
      intro m hm2
      rcases List.mem_cons.mp hm2 with rfl | hm3
      · exact f1 _ (List.mem_of_elem_eq_true hm)
      · exact f2 m hm3
    · simp only [SyncPop3.pop3Loop, hm, Bool.false_eq_true, if_false] at h
      cases hp : SyncPop3._parse_date raw now with
      | error e => rw [hp] at h; exact absurd h (by simp)
      | ok dt =>
        rw [hp] at h
        obtain ⟨f1, f2, f3, f4⟩ := ih _ _ _ _ _ _ h
        refine ⟨?_, ?_, ?_, ?_⟩
        · intro x hx
          exact f1 x ((mem_setAdd _ _ _).mpr (Or.inl hx))
        · intro m hm2
          rcases List.mem_cons.mp hm2 with rfl | hm3
          · exact f1 _ ((mem_setAdd _ _ _).mpr (Or.inr rfl))
          · exact f2 m hm3
        · intro hc x hx
          refine f3 ?_ x hx
          intro z hz
          rcases (mem_setAdd _ _ _).mp hz with hz2 | rfl
          · exact hc z hz2
          · exact msg_hash_clean raw
        · intro P hP
          rw [f4 P hP]
          refine fsRead_fsWrite_ne fs _ P raw ?_
          intro he
          rw [he] at hP
          exact hP (pop3Filepath_getLast d raw)

/-! ## Helper lemmas: POP3 runs -/

theorem pop3StateFile_getLast (bd acct : String) :
    (SyncPop3.pop3StateFile bd acct).data.getLast? = some 'e' :=
  statePath_getLast (SyncPop3.pop3InboxDir bd acct)

theorem pop3StateFile_not_eml (bd acct : String) :
    (SyncPop3.pop3StateFile bd acct).data.getLast? ≠ some 'l' := by
  rw [pop3StateFile_getLast]
  simp

theorem sync_pop3_eq (acct : String) (remote : List Bytes) (bd : String)
    (fs0 : FS) (now : PyDateTime) :
    SyncPop3.sync_pop3_account acct remote bd fs0 now =
      match SyncPop3.pop3Loop (SyncPop3.pop3InboxDir bd acct) now remote
          (SyncPop3.pop3MigrateFS bd acct fs0)
          (SyncPop3._load_synced_hashes (SyncPop3.pop3MigrateFS bd acct fs0)
            (SyncPop3.pop3StateFile bd acct)) 0 with
      | .error e => .error e
      | .ok (fs2, synced2, tn) =>
        .ok (SyncPop3._save_synced_hashes fs2 (SyncPop3.pop3StateFile bd acct) synced2, tn) :=
  rfl

theorem pop3_load_empty_of_absent (fs : FS) (p : String)
    (h : fsExists fs p = false) : SyncPop3._load_synced_hashes fs p = [] := by
  unfold SyncPop3._load_synced_hashes
  have hr : fsRead fs p = none := by
    unfold fsExists at h
    cases hh : fsRead fs p with
    | none => rfl
    | some c => rw [hh] at h; simp at h
  unfold fsReadText
  rw [hr]
  rfl

theorem pop3_migrate_load (bd acct : String) (fs0 : FS) :
    SyncPop3._load_synced_hashes (SyncPop3.pop3MigrateFS bd acct fs0)
        (SyncPop3.pop3StateFile bd acct) =
      SyncPop3._load_synced_hashes fs0 (SyncPop3.pop3StateFile bd acct) ∨
    (SyncPop3._load_synced_hashes fs0 (SyncPop3.pop3StateFile bd acct) = [] ∧
      SyncPop3._load_synced_hashes (SyncPop3.pop3MigrateFS bd acct fs0)
          (SyncPop3.pop3StateFile bd acct) =
        SyncPop3._load_synced_hashes fs0 (SyncPop3.pop3OldState bd acct)) := by
  unfold SyncPop3.pop3MigrateFS
  by_cases hcond : (!fsExists fs0 (SyncPop3.pop3StateFile bd acct) &&
      fsExists fs0 (SyncPop3.pop3OldState bd acct)) = true
  · right
    obtain ⟨h1, hold⟩ : (!fsExists fs0 (SyncPop3.pop3StateFile bd acct)) = true ∧
        fsExists fs0 (SyncPop3.pop3OldState bd acct) = true := by
      constructor
      · rcases hb : !fsExists fs0 (SyncPop3.pop3StateFile bd acct) with _ | _
        · rw [hb] at hcond; simp at hcond
        · rfl
      · rcases hb : fsExists fs0 (SyncPop3.pop3OldState bd acct) with _ | _
        · rw [hb] at hcond; simp at hcond
        · rfl
    have habs : fsExists fs0 (SyncPop3.pop3StateFile bd acct) = false := by
      simpa using h1
    constructor
    · exact pop3_load_empty_of_absent fs0 _ habs
    · rw [if_pos hcond]
      have holdtext : ∃ t, fsReadText fs0 (SyncPop3.pop3OldState bd acct) = some t := by
        unfold fsExists at hold
        cases hh : fsRead fs0 (SyncPop3.pop3OldState bd acct) with
        | none => rw [hh] at hold; simp at hold
        | some c => exact ⟨bytesToString c, by unfold fsReadText; rw [hh]; rfl⟩
      obtain ⟨t, ht⟩ := holdtext
      unfold SyncPop3._load_synced_hashes
      rw [fsReadText_fsWriteText_self, ht]
      rfl
  · left
    rw [if_neg hcond]

theorem pop3_migrate_noop (bd acct : String) (fs : FS)
    (h : fsExists fs (SyncPop3.pop3StateFile bd acct) = true) :
    SyncPop3.pop3MigrateFS bd acct fs = fs := by
  unfold SyncPop3.pop3MigrateFS
  rw [if_neg]
  simp [h]

theorem pop3_run_facts (acct : String) (remote : List Bytes) (bd : String)
    (fs0 : FS) (now : PyDateTime) (fsR : FS) (n : Nat)
    (hc0 : ∀ x ∈ SyncPop3._load_synced_hashes fs0 (SyncPop3.pop3StateFile bd acct), CleanId x)
    (hcold : ∀ x ∈ SyncPop3._load_synced_hashes fs0 (SyncPop3.pop3OldState bd acct), CleanId x)
    (h : SyncPop3.sync_pop3_account acct remote bd fs0 now = .ok (fsR, n)) :
    (∀ x ∈ SyncPop3._load_synced_hashes fs0 (SyncPop3.pop3StateFile bd acct),
      x ∈ SyncPop3._load_synced_hashes fsR (SyncPop3.pop3StateFile bd acct)) ∧
    (∀ m ∈ remote, SyncPop3._msg_hash m ∈
      SyncPop3._load_synced_hashes fsR (SyncPop3.pop3StateFile bd acct)) ∧
    (∀ x ∈ SyncPop3._load_synced_hashes fsR (SyncPop3.pop3StateFile bd acct), CleanId x) ∧
    fsExists fsR (SyncPop3.pop3StateFile bd acct) = true := by
  rw [sync_pop3_eq] at h
  cases hloop : SyncPop3.pop3Loop (SyncPop3.pop3InboxDir bd acct) now remote
      (SyncPop3.pop3MigrateFS bd acct fs0)
      (SyncPop3._load_synced_hashes (SyncPop3.pop3MigrateFS bd acct fs0)
        (SyncPop3.pop3StateFile bd acct)) 0 with
  | error e => rw [hloop] at h; exact absurd h (by simp)
  | ok res =>
    obtain ⟨fs2, synced2, tn⟩ := res
    rw [hloop] at h
    simp only [Except.ok.injEq, Prod.mk.injEq] at h
    obtain ⟨hfsR, hn⟩ := h
    obtain ⟨f1, f2, f3, f4⟩ := pop3Loop_ok_facts _ now remote _ _ 0 fs2 synced2 tn hloop
    have hclean0 : ∀ x ∈ SyncPop3._load_synced_hashes (SyncPop3.pop3MigrateFS bd acct fs0)
        (SyncPop3.pop3StateFile bd acct), CleanId x := by
      rcases pop3_migrate_load bd acct fs0 with hm | ⟨hempty, hm⟩
      · rw [hm]; exact hc0
      · rw [hm]; exact hcold
    have hclean2 : ∀ x ∈ synced2, CleanId x := f3 hclean0
    have hload : ∀ x, x ∈ SyncPop3._load_synced_hashes fsR (SyncPop3.pop3StateFile bd acct) ↔
        x ∈ synced2 := by
      intro x
      rw [← hfsR]
      exact load_save_mem fs2 _ synced2 hclean2 x
    refine ⟨?_, ?_, ?_, ?_⟩
    · intro x hx
      have hx1 : x ∈ SyncPop3._load_synced_hashes (SyncPop3.pop3MigrateFS bd acct fs0)
          (SyncPop3.pop3StateFile bd acct) := by
        rcases pop3_migrate_load bd acct fs0 with hm | ⟨hempty, hm⟩
        · rw [hm]; exact hx
        · rw [hempty] at hx; cases hx
      exact (hload x).mpr (f1 x hx1)
    · intro m hm
      exact (hload _).mpr (f2 m hm)
    · intro x hx
      exact hclean2 x ((hload x).mp hx)
    · rw [← hfsR]
      exact fsExists_fsWrite_self fs2 _ _

theorem pop3_second_run (acct : String) (remote : List Bytes) (bd : String)
    (fs0 : FS) (now now2 : PyDateTime) (fsR : FS) (n : Nat)
    (hc0 : ∀ x ∈ SyncPop3._load_synced_hashes fs0 (SyncPop3.pop3StateFile bd acct), CleanId x)
    (hcold : ∀ x ∈ SyncPop3._load_synced_hashes fs0 (SyncPop3.pop3OldState bd acct), CleanId x)
    (h : SyncPop3.sync_pop3_account acct remote bd fs0 now = .ok (fsR, n)) :
    ∃ fsR2, SyncPop3.sync_pop3_account acct remote bd fsR now2 = .ok (fsR2, 0) ∧
      (∀ p, p ≠ SyncPop3.pop3StateFile bd acct → fsRead fsR2 p = fsRead fsR p) ∧
      (∀ p, fsExists fsR2 p = fsExists fsR p) ∧
      (∀ x, x ∈ SyncPop3._load_synced_hashes fsR2 (SyncPop3.pop3StateFile bd acct) ↔
        x ∈ SyncPop3._load_synced_hashes fsR (SyncPop3.pop3StateFile bd acct)) := by
  obtain ⟨-, f2, f3, f4⟩ := pop3_run_facts acct remote bd fs0 now fsR n hc0 hcold h
  have hskip : ∀ m ∈ remote,
      (SyncPop3._load_synced_hashes fsR (SyncPop3.pop3StateFile bd acct)).contains
        (SyncPop3._msg_hash m) = true :=
    fun m hm => List.elem_eq_true_of_mem (f2 m hm)
  have hrun2 : SyncPop3.sync_pop3_account acct remote bd fsR now2 =
      .ok (SyncPop3._save_synced_hashes fsR (SyncPop3.pop3StateFile bd acct)
        (SyncPop3._load_synced_hashes fsR (SyncPop3.pop3StateFile bd acct)), 0) := by
    rw [sync_pop3_eq, pop3_migrate_noop bd acct fsR f4,
      pop3Loop_skip_all _ now2 remote fsR _ 0 hskip]
  refine ⟨_, hrun2, ?_, ?_, ?_⟩
  · intro p hp
    exact fsRead_fsWrite_ne fsR _ p _ hp
  · intro p
    by_cases hp : p = SyncPop3.pop3StateFile bd acct
    · rw [hp]
      have h1 : fsExists (SyncPop3._save_synced_hashes fsR (SyncPop3.pop3StateFile bd acct)
          (SyncPop3._load_synced_hashes fsR (SyncPop3.pop3StateFile bd acct)))
          (SyncPop3.pop3StateFile bd acct) = true :=
        fsExists_fsWrite_self fsR _ _
      rw [h1, f4]
    · have h1 : fsRead (SyncPop3._save_synced_hashes fsR (SyncPop3.pop3StateFile bd acct)
          (SyncPop3._load_synced_hashes fsR (SyncPop3.pop3StateFile bd acct))) p =
          fsRead fsR p :=
        fsRead_fsWrite_ne fsR _ p _ hp
      unfold fsExists
      rw [h1]
  · intro x
    exact load_save_mem fsR _ _ f3 x

/-! ## Helper lemmas: the Gmail adapter -/

theorem gmail_load_eq_pop3 : SyncGmail._load_synced_ids = SyncPop3._load_synced_hashes := rfl

theorem gmail_save_eq_pop3 : SyncGmail._save_synced_ids = SyncPop3._save_synced_hashes := rfl

theorem gmail_load_save_mem (fs : FS) (p : String) (l : List String)
    (hc : ∀ x ∈ l, CleanId x) (x : String) :
    x ∈ SyncGmail._load_synced_ids (SyncGmail._save_synced_ids fs p l) p ↔ x ∈ l := by
  rw [gmail_load_eq_pop3, gmail_save_eq_pop3]
  exact load_save_mem fs p l hc x

theorem load_congr {fs1 fs2 : FS} (p : String) (h : fsRead fs1 p = fsRead fs2 p) :
    SyncGmail._load_synced_ids fs1 p = SyncGmail._load_synced_ids fs2 p := by
  rw [gmail_load_eq_pop3]
  unfold SyncPop3._load_synced_hashes fsReadText
  rw [h]

theorem gmailFilepath_getLast (fp : String) (raw : Bytes) (mid : String) :
    (SyncGmail.gmailFilepath fp raw mid).data.getLast? = some 'l' :=
  emlPath_getLast (fp ++ "/") (content_checksum raw ++ "-" ++ mid)

theorem gmail_load_empty_of_absent (fs : FS) (p : String)
    (h : fsExists fs p = false) : SyncGmail._load_synced_ids fs p = [] := by
  rw [gmail_load_eq_pop3]
  exact pop3_load_empty_of_absent fs p h

theorem gmailDownLoop_facts (remote : SyncGmail.GmailRemote) (fp sf : String)
    (hsf : sf.data.getLast? ≠ some 'l') :
    ∀ (ids : List String) (fs : FS) (synced : List String) (t : Nat),
      (∀ x ∈ synced, CleanId x) → (∀ mid ∈ ids, CleanId mid) →
      (∀ x ∈ SyncGmail._load_synced_ids fs sf, x ∈ synced) →
      (∀ x ∈ synced, x ∈ (SyncGmail.gmailDownLoop remote fp sf ids fs synced t).2.1) ∧
      (∀ mid ∈ ids, mid ∈ (SyncGmail.gmailDownLoop remote fp sf ids fs synced t).2.1) ∧
      (∀ x ∈ (SyncGmail.gmailDownLoop remote fp sf ids fs synced t).2.1, CleanId x) ∧
      (∀ P, P ≠ sf → P.data.getLast? ≠ some 'l' →
        fsRead (SyncGmail.gmailDownLoop remote fp sf ids fs synced t).1 P = fsRead fs P) ∧
      (∀ P, fsExists fs P = true →
        fsExists (SyncGmail.gmailDownLoop remote fp sf ids fs synced t).1 P = true) ∧
      (∀ x ∈ SyncGmail._load_synced_ids
          (SyncGmail.gmailDownLoop remote fp sf ids fs synced t).1 sf,
        x ∈ (SyncGmail.gmailDownLoop remote fp sf ids fs synced t).2.1) := by
  intro ids
  induction ids with
  | nil =>
    intro fs synced t hcs hci hinv
    exact ⟨fun x hx => hx, by simp, hcs, fun P _ _ => rfl, fun P h => h, hinv⟩
  | cons mid rest ih =>
    intro fs synced t hcs hci hinv
    have hmidc : CleanId mid := hci mid (List.mem_cons_self mid rest)
    have hrestc : ∀ m ∈ rest, CleanId m := fun m hm => hci m (List.mem_cons_of_mem mid hm)
    have hcs2 : ∀ x ∈ setAdd synced mid, CleanId x := by
      intro z hz
      rcases (mem_setAdd _ _ _).mp hz with hz2 | rfl
      · exact hcs z hz2
      · exact hmidc
    have hemlne : SyncGmail.gmailFilepath fp (remote.rawOf mid) mid ≠ sf := by
      intro he
      rw [← he] at hsf
      exact hsf (gmailFilepath_getLast fp (remote.rawOf mid) mid)
    -- the two possible file systems after this message
    by_cases hsave : (t + 1) % 100 = 0
    · -- write then a state save
      have hstep : SyncGmail.gmailDownLoop remote fp sf (mid :: rest) fs synced t =
          SyncGmail.gmailDownLoop remote fp sf rest
            (SyncGmail._save_synced_ids
              (fsWrite fs (SyncGmail.gmailFilepath fp (remote.rawOf mid) mid) (remote.rawOf mid))
              sf (setAdd synced mid))
            (setAdd synced mid) (t + 1) := by
        simp only [SyncGmail.gmailDownLoop, hsave, if_true]
      have hinv2 : ∀ x ∈ SyncGmail._load_synced_ids
          (SyncGmail._save_synced_ids
            (fsWrite fs (SyncGmail.gmailFilepath fp (remote.rawOf mid) mid) (remote.rawOf mid))
            sf (setAdd synced mid)) sf, x ∈ setAdd synced mid := by
        intro x hx
        exact (gmail_load_save_mem _ sf _ hcs2 x).mp hx
      obtain ⟨g1, g2, g3, g4, g5, g6⟩ := ih _ (setAdd synced mid) (t + 1) hcs2 hrestc hinv2
      rw [hstep]
      refine ⟨?_, ?_, g3, ?_, ?_, g6⟩
      · intro x hx
        exact g1 x ((mem_setAdd _ _ _).mpr (Or.inl hx))
      · intro m hm
        rcases List.mem_cons.mp hm with rfl | hm2
        · exact g1 _ ((mem_setAdd _ _ _).mpr (Or.inr rfl))
        · exact g2 m hm2
      · intro P hPs hPl
        rw [g4 P hPs hPl]
        have h1 : fsRead (SyncGmail._save_synced_ids
            (fsWrite fs (SyncGmail.gmailFilepath fp (remote.rawOf mid) mid) (remote.rawOf mid))
            sf (setAdd synced mid)) P =
            fsRead (fsWrite fs (SyncGmail.gmailFilepath fp (remote.rawOf mid) mid)
              (remote.rawOf mid)) P :=
          fsRead_fsWrite_ne _ sf P _ hPs
        rw [h1]
        refine fsRead_fsWrite_ne fs _ P _ ?_
        intro he
        rw [he] at hPl
        exact hPl (gmailFilepath_getLast fp (remote.rawOf mid) mid)
      · intro P hP
        refine g5 P ?_
        have h1 : fsExists (fsWrite fs (SyncGmail.gmailFilepath fp (remote.rawOf mid) mid)
            (remote.rawOf mid)) P = true := fsExists_fsWrite_mono fs _ P _ hP
        exact fsExists_fsWrite_mono _ sf P _ h1
    · have hstep : SyncGmail.gmailDownLoop remote fp sf (mid :: rest) fs synced t =
          SyncGmail.gmailDownLoop remote fp sf rest
            (fsWrite fs (SyncGmail.gmailFilepath fp (remote.rawOf mid) mid) (remote.rawOf mid))
            (setAdd synced mid) (t + 1) := by
        simp only [SyncGmail.gmailDownLoop, hsave, Bool.false_eq_true, if_false]
      have hinv2 : ∀ x ∈ SyncGmail._load_synced_ids
          (fsWrite fs (SyncGmail.gmailFilepath fp (remote.rawOf mid) mid) (remote.rawOf mid)) sf,
          x ∈ setAdd synced mid := by
        intro x hx
        rw [load_congr sf (fsRead_fsWrite_ne fs _ sf _ (fun he => hemlne he.symm))] at hx
        exact (mem_setAdd _ _ _).mpr (Or.inl (hinv x hx))
      obtain ⟨g1, g2, g3, g4, g5, g6⟩ := ih _ (setAdd synced mid) (t + 1) hcs2 hrestc hinv2
      rw [hstep]
      refine ⟨?_, ?_, g3, ?_, ?_, g6⟩
      · intro x hx
        exact g1 x ((mem_setAdd _ _ _).mpr (Or.inl hx))
      · intro m hm
        rcases List.mem_cons.mp hm with rfl | hm2
        · exact g1 _ ((mem_setAdd _ _ _).mpr (Or.inr rfl))
        · exact g2 m hm2
      · intro P hPs hPl
        rw [g4 P hPs hPl]
        refine fsRead_fsWrite_ne fs _ P _ ?_
        intro he
        rw [he] at hPl
        exact hPl (gmailFilepath_getLast fp (remote.rawOf mid) mid)
      · intro P hP
        exact g5 P (fsExists_fsWrite_mono fs _ P _ hP)

theorem gmailStatePath_ne_old (acct_dir dir : String) :
    acct_dir ++ "/" ++ dir ++ "/.sync_state" ≠ acct_dir ++ "/.sync_state" := by
  intro he
  have hd := congrArg (fun s : String => s.data.length) he
  simp only [String.data_append, List.length_append] at hd
  have h1 : ("/" : String).data.length = 1 := by decide
  have h2 : ("/.sync_state" : String).data.length = 12 := by decide
  rw [h1, h2] at hd
  omega

theorem gmailLabelBody_facts (remote : SyncGmail.GmailRemote) (fp : String)
    (fs1 : FS) (synced1 : List String) (t : Nat) (all : List String)
    (hA1 : SyncGmail._load_synced_ids fs1 (fp ++ "/.sync_state") = synced1)
    (hA2 : ∀ x ∈ synced1, CleanId x)
    (hids : ∀ mid ∈ all, CleanId mid) :
    (∀ mid ∈ all, mid ∈ SyncGmail._load_synced_ids
      (SyncGmail.gmailLabelBody remote fp fs1 synced1 t all).1 (fp ++ "/.sync_state")) ∧
    (∀ x ∈ SyncGmail._load_synced_ids
      (SyncGmail.gmailLabelBody remote fp fs1 synced1 t all).1 (fp ++ "/.sync_state"),
      CleanId x) ∧
    (∀ P, P ≠ fp ++ "/.sync_state" → P.data.getLast? ≠ some 'l' →
      fsRead (SyncGmail.gmailLabelBody remote fp fs1 synced1 t all).1 P = fsRead fs1 P) ∧
    (∀ P, fsExists fs1 P = true →
      fsExists (SyncGmail.gmailLabelBody remote fp fs1 synced1 t all).1 P = true) ∧
    (∀ x ∈ SyncGmail._load_synced_ids fs1 (fp ++ "/.sync_state"),
      x ∈ SyncGmail._load_synced_ids
        (SyncGmail.gmailLabelBody remote fp fs1 synced1 t all).1 (fp ++ "/.sync_state")) := by
  have hsf : (fp ++ "/.sync_state").data.getLast? ≠ some 'l' := by
    rw [statePath_getLast]
    simp
  unfold SyncGmail.gmailLabelBody
  by_cases hempty : (all.filter fun mid => !synced1.contains mid).isEmpty = true
  · rw [if_pos hempty]
    have hallmem : ∀ mid ∈ all, mid ∈ synced1 := by
      intro mid hm
      have hf : (all.filter fun mid => !synced1.contains mid) = [] :=
        List.isEmpty_iff.mp hempty
      have hnp := List.filter_eq_nil_iff.mp hf mid hm
      simp only [Bool.not_eq_true'] at hnp
      have hcontains : synced1.contains mid = true := by
        cases hbc : synced1.contains mid with
        | false => exact absurd hbc hnp
        | true => rfl
      exact List.mem_of_elem_eq_true hcontains
    refine ⟨?_, ?_, fun P _ _ => rfl, fun P h => h, fun x hx => hx⟩
    · intro mid hm
      rw [hA1]
      exact hallmem mid hm
    · intro x hx
      rw [hA1] at hx
      exact hA2 x hx
  · rw [if_neg hempty]
    have hidsf : ∀ mid ∈ all.filter (fun mid => !synced1.contains mid), CleanId mid :=
      fun mid hm => hids mid (List.mem_of_mem_filter hm)
    have hinv : ∀ x ∈ SyncGmail._load_synced_ids fs1 (fp ++ "/.sync_state"), x ∈ synced1 := by
      intro x hx
      rw [hA1] at hx
      exact hx
    obtain ⟨g1, g2, g3, g4, g5, g6⟩ := gmailDownLoop_facts remote fp (fp ++ "/.sync_state") hsf
      (all.filter fun mid => !synced1.contains mid) fs1 synced1 t hA2 hidsf hinv
    have hr2clean : ∀ x ∈ (SyncGmail.gmailDownLoop remote fp (fp ++ "/.sync_state")
        (all.filter fun mid => !synced1.contains mid) fs1 synced1 t).2.1, CleanId x := g3
    refine ⟨?_, ?_, ?_, ?_, ?_⟩
    · intro mid hm
      rw [gmail_load_save_mem _ _ _ hr2clean]
      by_cases hc : synced1.contains mid = true
      · exact g1 mid (List.mem_of_elem_eq_true hc)
      · refine g2 mid (List.mem_filter.mpr ⟨hm, ?_⟩)
        simp only [Bool.not_eq_true'] at hc ⊢
        rcases hbc : synced1.contains mid with _ | _
        · rfl
        · exact absurd hbc hc
    · intro x hx
      rw [gmail_load_save_mem _ _ _ hr2clean] at hx
      exact g3 x hx
    · intro P hPs hPl
      have h1 : fsRead (SyncGmail._save_synced_ids
          (SyncGmail.gmailDownLoop remote fp (fp ++ "/.sync_state")
            (all.filter fun mid => !synced1.contains mid) fs1 synced1 t).1
          (fp ++ "/.sync_state")
          (SyncGmail.gmailDownLoop remote fp (fp ++ "/.sync_state")
            (all.filter fun mid => !synced1.contains mid) fs1 synced1 t).2.1) P =
          fsRead (SyncGmail.gmailDownLoop remote fp (fp ++ "/.sync_state")
            (all.filter fun mid => !synced1.contains mid) fs1 synced1 t).1 P :=
        fsRead_fsWrite_ne _ _ P _ hPs
      rw [h1]
      exact g4 P hPs hPl
    · intro P hP
      exact fsExists_fsWrite_mono _ _ P _ (g5 P hP)
    · intro x hx
      rw [gmail_load_save_mem _ _ _ hr2clean]
      exact g1 x (hinv x hx)

theorem load_write_copy (fs : FS) (src dst : String) (hsrc : fsExists fs src = true) :
    SyncGmail._load_synced_ids (fsWriteText fs dst ((fsReadText fs src).getD "")) dst =
      SyncGmail._load_synced_ids fs src := by
  obtain ⟨tt, ht⟩ : ∃ tt, fsReadText fs src = some tt := by
    unfold fsExists at hsrc
    cases hh : fsRead fs src with
    | none => rw [hh] at hsrc; simp at hsrc
    | some c => exact ⟨bytesToString c, by unfold fsReadText; rw [hh]; rfl⟩
  rw [gmail_load_eq_pop3]
  unfold SyncPop3._load_synced_hashes
  rw [fsReadText_fsWriteText_self, ht]
  rfl

theorem gmailLabelStep_eq (remote : SyncGmail.GmailRemote) (acct_dir : String)
    (fs : FS) (t : Nat) (label : String) :
    SyncGmail.gmailLabelStep remote acct_dir (fs, t) label =
      SyncGmail.gmailLabelBody remote (acct_dir ++ "/" ++ SyncGmail.labelFolderDir label)
        (if (SyncGmail.labelFolderDir label = "inbox" &&
            !fsExists fs (acct_dir ++ "/" ++ SyncGmail.labelFolderDir label ++ "/.sync_state") &&
            fsExists fs (acct_dir ++ "/.sync_state")) = true then
          fsWriteText fs (acct_dir ++ "/" ++ SyncGmail.labelFolderDir label ++ "/.sync_state")
            ((fsReadText fs (acct_dir ++ "/.sync_state")).getD "")
        else fs)
        (if (SyncGmail.labelFolderDir label = "inbox" &&
            !fsExists fs (acct_dir ++ "/" ++ SyncGmail.labelFolderDir label ++ "/.sync_state") &&
            fsExists fs (acct_dir ++ "/.sync_state")) = true then
          SyncGmail._load_synced_ids
            (if (SyncGmail.labelFolderDir label = "inbox" &&
                !fsExists fs (acct_dir ++ "/" ++ SyncGmail.labelFolderDir label ++ "/.sync_state") &&
                fsExists fs (acct_dir ++ "/.sync_state")) = true then
              fsWriteText fs (acct_dir ++ "/" ++ SyncGmail.labelFolderDir label ++ "/.sync_state")
                ((fsReadText fs (acct_dir ++ "/.sync_state")).getD "")
            else fs)
            (acct_dir ++ "/" ++ SyncGmail.labelFolderDir label ++ "/.sync_state")
        else SyncGmail._load_synced_ids fs
          (acct_dir ++ "/" ++ SyncGmail.labelFolderDir label ++ "/.sync_state"))
        t ((remote.pages label).flatten) := rfl

theorem gmailStepCore_facts (remote : SyncGmail.GmailRemote) (acct_dir dir : String)
    (fs fs1 : FS) (t : Nat) (all : List String)
    (hclean : ∀ d : String, ∀ x ∈ SyncGmail._load_synced_ids fs (d ++ "/.sync_state"), CleanId x)
    (hids : ∀ mid ∈ all, CleanId mid)
    (hA2 : ∀ x ∈ SyncGmail._load_synced_ids fs1 (acct_dir ++ "/" ++ dir ++ "/.sync_state"),
      CleanId x)
    (hA3 : ∀ P, P ≠ acct_dir ++ "/" ++ dir ++ "/.sync_state" → fsRead fs1 P = fsRead fs P)
    (hA4 : ∀ x ∈ SyncGmail._load_synced_ids fs (acct_dir ++ "/" ++ dir ++ "/.sync_state"),
      x ∈ SyncGmail._load_synced_ids fs1 (acct_dir ++ "/" ++ dir ++ "/.sync_state"))
    (hA5 : ∀ P, fsExists fs P = true → fsExists fs1 P = true) :
    (∀ mid ∈ all, mid ∈ SyncGmail._load_synced_ids
      (SyncGmail.gmailLabelBody remote (acct_dir ++ "/" ++ dir) fs1
        (SyncGmail._load_synced_ids fs1 (acct_dir ++ "/" ++ dir ++ "/.sync_state")) t all).1
      (acct_dir ++ "/" ++ dir ++ "/.sync_state")) ∧
    (∀ d : String, ∀ x ∈ SyncGmail._load_synced_ids
      (SyncGmail.gmailLabelBody remote (acct_dir ++ "/" ++ dir) fs1
        (SyncGmail._load_synced_ids fs1 (acct_dir ++ "/" ++ dir ++ "/.sync_state")) t all).1
      (d ++ "/.sync_state"), CleanId x) ∧
    (∀ d : String, ∀ x ∈ SyncGmail._load_synced_ids fs (d ++ "/.sync_state"),
      x ∈ SyncGmail._load_synced_ids
        (SyncGmail.gmailLabelBody remote (acct_dir ++ "/" ++ dir) fs1
          (SyncGmail._load_synced_ids fs1 (acct_dir ++ "/" ++ dir ++ "/.sync_state")) t all).1
        (d ++ "/.sync_state")) ∧
    (∀ P, fsExists fs P = true →
      fsExists (SyncGmail.gmailLabelBody remote (acct_dir ++ "/" ++ dir) fs1
        (SyncGmail._load_synced_ids fs1 (acct_dir ++ "/" ++ dir ++ "/.sync_state")) t all).1
        P = true) ∧
    (∀ P, P ≠ acct_dir ++ "/" ++ dir ++ "/.sync_state" → P.data.getLast? ≠ some 'l' →
      fsRead (SyncGmail.gmailLabelBody remote (acct_dir ++ "/" ++ dir) fs1
        (SyncGmail._load_synced_ids fs1 (acct_dir ++ "/" ++ dir ++ "/.sync_state")) t all).1
        P = fsRead fs P) := by
  obtain ⟨b1, b2, b3, b4, b5⟩ := gmailLabelBody_facts remote (acct_dir ++ "/" ++ dir) fs1
    (SyncGmail._load_synced_ids fs1 (acct_dir ++ "/" ++ dir ++ "/.sync_state")) t all rfl hA2 hids
  have hstatene : ∀ d : String, d ++ "/.sync_state" ≠ acct_dir ++ "/" ++ dir ++ "/.sync_state" →
      SyncGmail._load_synced_ids
        (SyncGmail.gmailLabelBody remote (acct_dir ++ "/" ++ dir) fs1
          (SyncGmail._load_synced_ids fs1 (acct_dir ++ "/" ++ dir ++ "/.sync_state")) t all).1
        (d ++ "/.sync_state") = SyncGmail._load_synced_ids fs (d ++ "/.sync_state") := by
    intro d hne
    have h1 := b3 (d ++ "/.sync_state") hne (by rw [statePath_getLast]; simp)
    rw [load_congr _ h1, load_congr _ (hA3 (d ++ "/.sync_state") hne)]
  refine ⟨b1, ?_, ?_, fun P hP => b4 P (hA5 P hP), ?_⟩
  · intro d x hx
    by_cases hdeq : d ++ "/.sync_state" = acct_dir ++ "/" ++ dir ++ "/.sync_state"
    · rw [hdeq] at hx
      exact b2 x hx
    · rw [hstatene d hdeq] at hx
      exact hclean d x hx
  · intro d x hx
    by_cases hdeq : d ++ "/.sync_state" = acct_dir ++ "/" ++ dir ++ "/.sync_state"
    · rw [hdeq]
      rw [hdeq] at hx
      exact b5 x (hA4 x hx)
    · rw [hstatene d hdeq]
      exact hx
  · intro P hPne hPl
    rw [b3 P hPne hPl]
    exact hA3 P hPne

theorem gmailLabelStep_facts (remote : SyncGmail.GmailRemote) (acct_dir : String)
    (fs : FS) (t : Nat) (label : String)
    (hclean : ∀ d : String, ∀ x ∈ SyncGmail._load_synced_ids fs (d ++ "/.sync_state"), CleanId x)
    (hids : ∀ mid ∈ (remote.pages label).flatten, CleanId mid) :
    (∀ mid ∈ (remote.pages label).flatten,
      mid ∈ SyncGmail._load_synced_ids
        (SyncGmail.gmailLabelStep remote acct_dir (fs, t) label).1
        (acct_dir ++ "/" ++ SyncGmail.labelFolderDir label ++ "/.sync_state")) ∧
    (∀ d : String, ∀ x ∈ SyncGmail._load_synced_ids
        (SyncGmail.gmailLabelStep remote acct_dir (fs, t) label).1 (d ++ "/.sync_state"),
      CleanId x) ∧
    (∀ d : String, ∀ x ∈ SyncGmail._load_synced_ids fs (d ++ "/.sync_state"),
      x ∈ SyncGmail._load_synced_ids
        (SyncGmail.gmailLabelStep remote acct_dir (fs, t) label).1 (d ++ "/.sync_state")) ∧
    (∀ P, fsExists fs P = true →
      fsExists (SyncGmail.gmailLabelStep remote acct_dir (fs, t) label).1 P = true) ∧
    (fsExists fs (acct_dir ++ "/.sync_state") = false →
      fsExists (SyncGmail.gmailLabelStep remote acct_dir (fs, t) label).1
        (acct_dir ++ "/.sync_state") = false) := by
  rw [gmailLabelStep_eq]
  by_cases hmig : (SyncGmail.labelFolderDir label = "inbox" &&
      !fsExists fs (acct_dir ++ "/" ++ SyncGmail.labelFolderDir label ++ "/.sync_state") &&
      fsExists fs (acct_dir ++ "/.sync_state")) = true
  · rw [if_pos hmig, if_pos hmig]
    have hold : fsExists fs (acct_dir ++ "/.sync_state") = true := by
      cases hb : fsExists fs (acct_dir ++ "/.sync_state") with
      | false => rw [hb] at hmig; simp at hmig
      | true => rfl
    have habs : fsExists fs
        (acct_dir ++ "/" ++ SyncGmail.labelFolderDir label ++ "/.sync_state") = false := by
      cases hb : fsExists fs
          (acct_dir ++ "/" ++ SyncGmail.labelFolderDir label ++ "/.sync_state") with
      | false => rfl
      | true => rw [hb] at hmig; simp at hmig
    have hcopy := load_write_copy fs (acct_dir ++ "/.sync_state")
      (acct_dir ++ "/" ++ SyncGmail.labelFolderDir label ++ "/.sync_state") hold
    obtain ⟨c1, c2, c3, c4, c5⟩ := gmailStepCore_facts remote acct_dir
      (SyncGmail.labelFolderDir label)
      fs (fsWriteText fs (acct_dir ++ "/" ++ SyncGmail.labelFolderDir label ++ "/.sync_state")
        ((fsReadText fs (acct_dir ++ "/.sync_state")).getD ""))
      t ((remote.pages label).flatten) hclean hids
      (by rw [hcopy]; exact hclean acct_dir)
      (fun P hne => fsRead_fsWrite_ne fs _ P _ hne)
      (by
        rw [gmail_load_empty_of_absent fs _ habs]
        intro x hx
        exact absurd hx (List.not_mem_nil x))
      (fun P hP => fsExists_fsWrite_mono fs _ P _ hP)
    exact ⟨c1, c2, c3, c4, fun habs2 => absurd hold (by rw [habs2]; simp)⟩
  · rw [if_neg hmig, if_neg hmig]
    obtain ⟨c1, c2, c3, c4, c5⟩ := gmailStepCore_facts remote acct_dir
      (SyncGmail.labelFolderDir label) fs fs t ((remote.pages label).flatten) hclean hids
      (hclean (acct_dir ++ "/" ++ SyncGmail.labelFolderDir label))
      (fun P _ => rfl) (fun x hx => hx) (fun P hP => hP)
    refine ⟨c1, c2, c3, c4, ?_⟩
    intro habs
    have hne : acct_dir ++ "/.sync_state" ≠
        acct_dir ++ "/" ++ SyncGmail.labelFolderDir label ++ "/.sync_state" :=
      fun he => gmailStatePath_ne_old acct_dir (SyncGmail.labelFolderDir label) he.symm
    have h1 := c5 (acct_dir ++ "/.sync_state") hne (by rw [statePath_getLast]; simp)
    unfold fsExists
    rw [h1]
    exact habs

theorem gmailLabelStep_noop (remote : SyncGmail.GmailRemote) (acct_dir : String)
    (fs : FS) (t : Nat) (label : String)
    (hOldAbs : fsExists fs (acct_dir ++ "/.sync_state") = false)
    (hall : ∀ mid ∈ (remote.pages label).flatten,
      (SyncGmail._load_synced_ids fs
        (acct_dir ++ "/" ++ SyncGmail.labelFolderDir label ++ "/.sync_state")).contains mid =
        true) :
    SyncGmail.gmailLabelStep remote acct_dir (fs, t) label = (fs, t) := by
  rw [gmailLabelStep_eq]
  have hmig : (SyncGmail.labelFolderDir label = "inbox" &&
      !fsExists fs (acct_dir ++ "/" ++ SyncGmail.labelFolderDir label ++ "/.sync_state") &&
      fsExists fs (acct_dir ++ "/.sync_state")) = false := by
    rw [hOldAbs]
    simp
  rw [hmig]
  simp only [Bool.false_eq_true, if_false]
  unfold SyncGmail.gmailLabelBody
  have hfilter : ((remote.pages label).flatten.filter fun mid =>
      !(SyncGmail._load_synced_ids fs
        (acct_dir ++ "/" ++ SyncGmail.labelFolderDir label ++ "/.sync_state")).contains mid) =
      [] := by
    refine List.filter_eq_nil_iff.mpr ?_
    intro mid hm
    rw [hall mid hm]
    simp
  rw [hfilter]
  rfl

theorem gmailFold_facts (remote : SyncGmail.GmailRemote) (acct_dir : String) :
    ∀ (labels : List String) (fs : FS) (t : Nat),
      (∀ d : String, ∀ x ∈ SyncGmail._load_synced_ids fs (d ++ "/.sync_state"), CleanId x) →
      (∀ l ∈ labels, ∀ mid ∈ (remote.pages l).flatten, CleanId mid) →
      (∀ l ∈ labels, ∀ mid ∈ (remote.pages l).flatten,
        mid ∈ SyncGmail._load_synced_ids
          (labels.foldl (SyncGmail.gmailLabelStep remote acct_dir) (fs, t)).1
          (acct_dir ++ "/" ++ SyncGmail.labelFolderDir l ++ "/.sync_state")) ∧
      (∀ d : String, ∀ x ∈ SyncGmail._load_synced_ids
          (labels.foldl (SyncGmail.gmailLabelStep remote acct_dir) (fs, t)).1
          (d ++ "/.sync_state"), CleanId x) ∧
      (∀ d : String, ∀ x ∈ SyncGmail._load_synced_ids fs (d ++ "/.sync_state"),
        x ∈ SyncGmail._load_synced_ids
          (labels.foldl (SyncGmail.gmailLabelStep remote acct_dir) (fs, t)).1
          (d ++ "/.sync_state")) ∧
      (fsExists fs (acct_dir ++ "/.sync_state") = false →
        fsExists (labels.foldl (SyncGmail.gmailLabelStep remote acct_dir) (fs, t)).1
          (acct_dir ++ "/.sync_state") = false) := by
  intro labels
  induction labels with
  | nil =>
    intro fs t hclean _
    exact ⟨by simp, hclean, fun d x hx => hx, fun h => h⟩
  | cons l rest ih =>
    intro fs t hclean hids
    obtain ⟨s1, s2, s3, s4, s5⟩ := gmailLabelStep_facts remote acct_dir fs t l hclean
      (hids l (List.mem_cons_self l rest))
    obtain ⟨i1, i2, i3, i5⟩ := ih (SyncGmail.gmailLabelStep remote acct_dir (fs, t) l).1
      (SyncGmail.gmailLabelStep remote acct_dir (fs, t) l).2 s2
      (fun l2 hl2 => hids l2 (List.mem_cons_of_mem l hl2))
    refine ⟨?_, i2, ?_, ?_⟩
    · intro l2 hl2 mid hmid
      rcases List.mem_cons.mp hl2 with rfl | hl3
      · exact i3 _ mid (s1 mid hmid)
      · exact i1 l2 hl3 mid hmid
    · intro d x hx
      exact i3 d x (s3 d x hx)
    · intro habs
      exact i5 (s5 habs)

theorem gmailFold_noop (remote : SyncGmail.GmailRemote) (acct_dir : String) :
    ∀ (labels : List String) (fs : FS) (t : Nat),
      fsExists fs (acct_dir ++ "/.sync_state") = false →
      (∀ l ∈ labels, ∀ mid ∈ (remote.pages l).flatten,
        (SyncGmail._load_synced_ids fs
          (acct_dir ++ "/" ++ SyncGmail.labelFolderDir l ++ "/.sync_state")).contains mid =
          true) →
      labels.foldl (SyncGmail.gmailLabelStep remote acct_dir) (fs, t) = (fs, t) := by
  intro labels
  induction labels with
  | nil => intro fs t _ _; rfl
  | cons l rest ih =>
    intro fs t habs hall
    rw [List.foldl_cons,
      gmailLabelStep_noop remote acct_dir fs t l habs (hall l (List.mem_cons_self l rest))]
    exact ih fs t habs (fun l2 hl2 => hall l2 (List.mem_cons_of_mem l hl2))

theorem gmail_second_run (acct : String) (labels : List String)
    (remote : SyncGmail.GmailRemote) (bd : String) (fs0 : FS)
    (hclean : ∀ d : String, ∀ x ∈ SyncGmail._load_synced_ids fs0 (d ++ "/.sync_state"), CleanId x)
    (hids : ∀ l ∈ labels, ∀ mid ∈ (remote.pages l).flatten, CleanId mid)
    (hOldAbs : fsExists fs0 (bd ++ "/" ++ acct ++ "/.sync_state") = false) :
    SyncGmail.sync_gmail_api_account acct labels remote bd
      (SyncGmail.sync_gmail_api_account acct labels remote bd fs0).1 =
    ((SyncGmail.sync_gmail_api_account acct labels remote bd fs0).1, 0) := by
  obtain ⟨d1, d2, d3, d5⟩ := gmailFold_facts remote (bd ++ "/" ++ acct) labels fs0 0 hclean hids
  exact gmailFold_noop remote (bd ++ "/" ++ acct) labels
    (SyncGmail.sync_gmail_api_account acct labels remote bd fs0).1 0 (d5 hOldAbs)
    (fun l hl mid hm => List.elem_eq_true_of_mem (d1 l hl mid hm))

/-! ## Helper lemmas: the IMAP adapter and the orchestrator -/

theorem imap_run_error (acct : String) (cfg : SyncImap.FoldersCfg)
    (remote : SyncImap.ImapRemote) (bd : String) (fs0 : FS) (f : String) (rest : List String)
    (hf : SyncImap.resolveFolders cfg remote = f :: rest) :
    SyncImap.sync_imap_account acct cfg remote bd fs0 =
      .error (.nameError "name 'imap_folder_to_dir' is not defined") := by
  unfold SyncImap.sync_imap_account
  rw [hf]
  rfl

theorem imap_run_ok_id (acct : String) (cfg : SyncImap.FoldersCfg)
    (remote : SyncImap.ImapRemote) (bd : String) (fs0 : FS) (fsR : FS) (n : Nat)
    (h : SyncImap.sync_imap_account acct cfg remote bd fs0 = .ok (fsR, n)) :
    fsR = fs0 ∧ n = 0 := by
  cases hf : SyncImap.resolveFolders cfg remote with
  | nil =>
    unfold SyncImap.sync_imap_account at h
    rw [hf] at h
    unfold SyncImap.imapFoldersRun at h
    simp only [Except.ok.injEq, Prod.mk.injEq] at h
    exact ⟨h.1.symm, h.2.symm⟩
  | cons f rest =>
    rw [imap_run_error acct cfg remote bd fs0 f rest hf] at h
    exact absurd h (by simp)

theorem getStatus_setStatus_ne (st : SyncApi.StatusMap) (name m : String)
    (f : SyncApi.StatusRec → SyncApi.StatusRec) (h : m ≠ name) :
    SyncApi.getStatus (SyncApi.setStatus st name f) m = SyncApi.getStatus st m := by
  induction st with
  | nil => rfl
  | cons e rest ih =>
    unfold SyncApi.setStatus SyncApi.getStatus at ih ⊢
    rw [List.map_cons]
    by_cases he : (e.1 == name) = true
    · rw [if_pos he]
      have he2 : e.1 = name := by simpa [beq_iff_eq] using he
      have hm : (e.1 == m) = false := by
        refine beq_eq_false_iff_ne.mpr ?_
        rw [he2]
        exact fun hh => h hh.symm
      rw [List.find?_cons_of_neg _ (by simp [hm]), List.find?_cons_of_neg _ (by simp [hm])]
      exact ih
    · rw [if_neg he]
      by_cases hm : (e.1 == m) = true
      · rw [List.find?_cons_of_pos _ (by simp [hm]), List.find?_cons_of_pos _ (by simp [hm])]
      · rw [List.find?_cons_of_neg _ (by simp [hm]), List.find?_cons_of_neg _ (by simp [hm])]
        exact ih

theorem getStatus_setStatus_self (st : SyncApi.StatusMap) (name : String)
    (f : SyncApi.StatusRec → SyncApi.StatusRec)
    (hmem : (st.find? fun e => e.1 == name).isSome = true) :
    SyncApi.getStatus (SyncApi.setStatus st name f) name = f (SyncApi.getStatus st name) := by
  induction st with
  | nil => simp [List.find?] at hmem
  | cons e rest ih =>
    unfold SyncApi.setStatus SyncApi.getStatus at ih ⊢
    rw [List.map_cons]
    by_cases he : (e.1 == name) = true
    · rw [if_pos he]
      rw [List.find?_cons_of_pos (p := fun x : String × SyncApi.StatusRec => x.1 == name) _ (by simpa using he),
        List.find?_cons_of_pos (p := fun x : String × SyncApi.StatusRec => x.1 == name) _ (by simpa using he)]
      rfl
    · rw [if_neg he]
      rw [List.find?_cons_of_neg _ (by simp [he]), List.find?_cons_of_neg _ (by simp [he])]
      rw [List.find?_cons_of_neg _ (by simp [he])] at hmem
      exact ih hmem

theorem trigger_sync_some_busy (accounts : List String) (st : SyncApi.StatusMap) (a : String)
    (hmem : accounts.contains a = true)
    (hsync : (SyncApi.getStatus st a).syncing = true) :
    SyncApi.trigger_sync accounts st (some a) =
      { code := 409, respAccounts := [a], status := st, spawned := none } := by
  unfold SyncApi.trigger_sync
  simp only [hmem, if_true]
  have hf : ([a].filter fun n => (SyncApi.getStatus st n).syncing) = [a] := by
    simp [hsync]
  simp only [hf]
  rfl

theorem sysTrigger_busy (accounts : List String) (s : DaemonSys.SysState) (a : String)
    (hmem : accounts.contains a = true)
    (hsync : (SyncApi.getStatus s.status a).syncing = true) :
    DaemonSys.sysTrigger accounts s a = (s, 409) := by
  unfold DaemonSys.sysTrigger
  rw [trigger_sync_some_busy accounts s.status a hmem hsync]

theorem trigger_sync_none_busy (accounts : List String) (st : SyncApi.StatusMap)
    (hbusy : accounts.filter (fun n => (SyncApi.getStatus st n).syncing) ≠ []) :
    SyncApi.trigger_sync accounts st none =
      { code := 409,
        respAccounts := accounts.filter (fun n => (SyncApi.getStatus st n).syncing),
        status := st, spawned := none } := by
  unfold SyncApi.trigger_sync
  have hne : (accounts.filter fun n => (SyncApi.getStatus st n).syncing).isEmpty = false := by
    cases hl : accounts.filter fun n => (SyncApi.getStatus st n).syncing with
    | nil => exact absurd hl hbusy
    | cons x xs => rfl
  simp only [hne]
  rfl

theorem trigger_sync_none_idle (accounts : List String) (st : SyncApi.StatusMap)
    (hidle : ∀ n ∈ accounts, (SyncApi.getStatus st n).syncing = false) :
    SyncApi.trigger_sync accounts st none =
      { code := 202, respAccounts := accounts,
        status := accounts.foldl (fun m n => SyncApi.setStatus m n
          fun r => { r with syncing := true, last_error := none }) st,
        spawned := some accounts } := by
  unfold SyncApi.trigger_sync
  have hf : accounts.filter (fun n => (SyncApi.getStatus st n).syncing) = [] := by
    refine List.filter_eq_nil_iff.mpr ?_
    intro n hn
    rw [hidle n hn]
    simp
  simp only [hf]
  rfl

theorem run_sync_cons (st : SyncApi.StatusMap) (a : String) (rest : List String)
    (results : String → Except String Int) (now : Nat) :
    SyncApi._run_sync st (a :: rest) results now =
      SyncApi._run_sync (SyncApi.runSyncOne st a (results a) now) rest results now := rfl


/-- C10: the POP3 dedup hash coincides with the shared content fingerprint,
so every POP3 file name duplicates the fingerprint as the external id. -/
theorem c10_pop3_hash_is_fingerprint :
    (∀ B : Bytes, SyncPop3._msg_hash B = content_checksum B 16) ∧
    (∀ (d : String) (B : Bytes), SyncPop3.pop3Filepath d B =
      d ++ "/" ++ (content_checksum B 16 ++ "-" ++ content_checksum B 16 ++ ".eml")) :=
  ⟨fun _ => rfl, fun _ _ => rfl⟩

/-- C2: on the spec's scenario (IMAP account `acme`, folder INBOX, remote
UIDs 1,2,3, empty state) the sync does not download anything: line 85 of
sync_imap.py evaluates the undefined name `imap_folder_to_dir` and the
whole run raises NameError. -/
theorem c2_imap_scenario_nameerror :
    SyncImap.sync_imap_account "acme" (.list ["INBOX"]) imapScenarioRemote "emails" [] =
      .error (.nameError "name 'imap_folder_to_dir' is not defined") ∧
    SyncImap.resolveFolders (.list ["INBOX"]) imapScenarioRemote = ["INBOX"] ∧
    imapScenarioRemote.searchAll "INBOX" = [1, 2, 3] := by
  refine ⟨?_, by decide, by decide⟩
  exact imap_run_error "acme" (.list ["INBOX"]) imapScenarioRemote "emails" [] "INBOX" []
    (by decide)

/-- C7 counterexample: a POP3 message whose Date header is present but
unparseable makes the POP3 adapter's own `_parse_date` raise ValueError
(and the whole POP3 sync run fail), while the shared
`parse_date_from_bytes` falls back to the current time. -/
theorem c7_pop3_raises_on_malformed_date :
    getDateHeaderVal msgBadDate = some "garbage" ∧
    SyncPop3._parse_date msgBadDate nowUTC =
      .error (.valueError "Invalid date value or format") ∧
    parse_date_from_bytes msgBadDate nowUTC = nowUTC ∧
    runOk (SyncPop3.sync_pop3_account "acme" [msgBadDate] "emails" [] nowUTC) = false := by
  refine ⟨by decide, by decide, by decide, ?_⟩
  decide

/-- C7 (amended): the shared `parse_date_from_bytes` is total and always
yields a UTC value (falling back to now on a missing, empty or unparseable
Date header); the POP3 adapter's `_parse_date` also yields a UTC value
whenever it returns at all (the counterexample shows it can instead raise). -/
theorem c7_date_parse_utc_total (raw : Bytes) (now : PyDateTime) (h : now.offMin = 0) :
    (parse_date_from_bytes raw now).offMin = 0 ∧
    (∀ d, SyncPop3._parse_date raw now = .ok d → d.offMin = 0) := by
  constructor
  · unfold parse_date_from_bytes
    by_cases hds : date_header_to_str (getDateHeaderVal raw) ≠ ""
    · rw [if_pos hds]
      cases hp : parsedateToDT (date_header_to_str (getDateHeaderVal raw)) with
      | ok parsed => rfl
      | error e => exact h
    · rw [if_neg hds]
      exact h
  · intro d hd
    unfold SyncPop3._parse_date at hd
    by_cases hds : (getDateHeaderVal raw).getD "" ≠ ""
    · rw [if_pos hds] at hd
      cases hp : parsedateToDT ((getDateHeaderVal raw).getD "") with
      | ok parsed =>
        rw [hp] at hd
        simp only [Except.ok.injEq] at hd
        rw [← hd]
        rfl
      | error e => rw [hp] at hd; exact absurd hd (by simp)
    · rw [if_neg hds] at hd
      simp only [Except.ok.injEq] at hd
      rw [← hd]
      exact h

/-- C7 witness: the totality theorem applied to a concrete dateless message. -/
theorem c7_date_parse_utc_total_witness :
    (parse_date_from_bytes msgNoDateA nowUTC).offMin = 0 :=
  (c7_date_parse_utc_total msgNoDateA nowUTC (by decide)).1

/-- C9: completion handling frame. On success the account's status records
the count, the sync time and clears the error; on failure only the error is
recorded and the syncing flag cleared, with the count and last-sync time
untouched; other accounts' statuses are never touched. -/
theorem c9_completion_frame (st : SyncApi.StatusMap) (name : String) (now : Nat)
    (hmem : (st.find? fun e => e.1 == name).isSome = true) :
    (∀ count : Int,
      SyncApi.getStatus (SyncApi.runSyncOne st name (.ok count) now) name =
        { syncing := false, last_sync := some now, last_error := none,
          new_messages := count }) ∧
    (∀ exc : String,
      SyncApi.getStatus (SyncApi.runSyncOne st name (.error exc) now) name =
        { syncing := false, last_sync := (SyncApi.getStatus st name).last_sync,
          last_error := some exc,
          new_messages := (SyncApi.getStatus st name).new_messages }) ∧
    (∀ (r : Except String Int) (m : String), m ≠ name →
      SyncApi.getStatus (SyncApi.runSyncOne st name r now) m = SyncApi.getStatus st m) := by
  refine ⟨?_, ?_, ?_⟩
  · intro count
    unfold SyncApi.runSyncOne
    rw [getStatus_setStatus_self st name _ hmem]
  · intro exc
    unfold SyncApi.runSyncOne
    rw [getStatus_setStatus_self st name _ hmem]
  · intro r m hm
    cases r with
    | ok count =>
      unfold SyncApi.runSyncOne
      exact getStatus_setStatus_ne st name m _ hm
    | error exc =>
      unfold SyncApi.runSyncOne
      exact getStatus_setStatus_ne st name m _ hm

/-- C9 witness: the frame theorem applied to a concrete two-account map. -/
theorem c9_completion_frame_witness :
    SyncApi.getStatus
      (SyncApi.runSyncOne (SyncApi.initStatusMap ["acme", "beta"]) "acme" (.ok 7) 123) "acme" =
      { syncing := false, last_sync := some 123, last_error := none, new_messages := 7 } :=
  (c9_completion_frame (SyncApi.initStatusMap ["acme", "beta"]) "acme" 123 (by decide)).1 7

theorem find_bump (l : List (String × Nat)) (a : String) :
    (((DaemonSys.bumpInFlight l a).find? fun e => e.1 == a).map (fun e => e.2)).getD 0 =
      ((l.find? fun e => e.1 == a).map (fun e => e.2)).getD 0 + 1 := by
  unfold DaemonSys.bumpInFlight
  by_cases hany : l.any (fun e => e.1 == a) = true
  · rw [if_pos hany]
    have key : ∀ l2 : List (String × Nat), (l2.find? fun e => e.1 == a).isSome = true →
        (((l2.map fun e => if e.1 == a then (e.1, e.2 + 1) else e).find?
          fun e => e.1 == a).map (fun e => e.2)).getD 0 =
        ((l2.find? fun e => e.1 == a).map (fun e => e.2)).getD 0 + 1 := by
      intro l2
      induction l2 with
      | nil => intro h; simp [List.find?] at h
      | cons e rest ih =>
        intro hs
        by_cases he : (e.1 == a) = true
        · rw [List.map_cons, if_pos he]
          rw [List.find?_cons_of_pos (p := fun x : String × Nat => x.1 == a) _
              (by simpa using he),
            List.find?_cons_of_pos (p := fun x : String × Nat => x.1 == a) _ he]
          rfl
        · rw [List.map_cons, if_neg he]
          rw [List.find?_cons_of_neg _ (by simp [he]), List.find?_cons_of_neg _ (by simp [he])]
          apply ih
          rw [List.find?_cons_of_neg _ (by simp [he])] at hs
          exact hs
    apply key l
    rcases List.any_eq_true.mp hany with ⟨x, hx, hpx⟩
    rcases hf : l.find? (fun e => e.1 == a) with _ | y
    · rw [List.find?_eq_none] at hf
      exact absurd hpx (hf x hx)
    · rw [hf]
      rfl
  · rw [if_neg hany]
    have hnone : l.find? (fun e => e.1 == a) = none := by
      refine List.find?_eq_none.mpr ?_
      intro x hx hpx
      exact hany (List.any_eq_true.mpr ⟨x, hx, hpx⟩)
    have happ : ∀ l2 : List (String × Nat), l2.find? (fun e => e.1 == a) = none →
        (l2 ++ [(a, 1)]).find? (fun e => e.1 == a) = some (a, 1) := by
      intro l2
      induction l2 with
      | nil =>
        intro _
        simp only [List.nil_append]
        rw [List.find?_cons_of_pos (p := fun x : String × Nat => x.1 == a) _
          (by simp [beq_self_eq_true])]
      | cons e rest ih =>
        intro hn
        have he : (e.1 == a) = false := by
          cases hb : (e.1 == a) with
          | false => rfl
          | true =>
            rw [List.find?_cons_of_pos (p := fun x : String × Nat => x.1 == a) _ hb] at hn
            exact absurd hn (by simp)
        rw [List.cons_append, List.find?_cons_of_neg _ (by simp [he])]
        apply ih
        rw [List.find?_cons_of_neg _ (by simp [he])] at hn
        exact hn
    rw [happ l hnone, hnone]
    rfl

theorem getInFlight_sysSchedTick (s : DaemonSys.SysState) (a : String) :
    DaemonSys.getInFlight (DaemonSys.sysSchedTick s a) a = DaemonSys.getInFlight s a + 1 := by
  unfold DaemonSys.getInFlight DaemonSys.sysSchedTick
  exact find_bump s.inFlight a

/-- C3 counterexample: after an accepted on-demand trigger has put account
`acme` into Syncing with one adapter invocation in flight, a scheduler tick
for the same account starts a second invocation without any status check:
two invocations of the same account are in flight at once. -/
theorem c3_two_in_flight_counterexample :
    (SyncApi.getStatus
      ((DaemonSys.sysTrigger ["acme"] (DaemonSys.initSys ["acme"]) "acme").1).status
      "acme").syncing = true ∧
    (DaemonSys.sysTrigger ["acme"] (DaemonSys.initSys ["acme"]) "acme").2 = 202 ∧
    DaemonSys.getInFlight
      (DaemonSys.sysSchedTick
        (DaemonSys.sysTrigger ["acme"] (DaemonSys.initSys ["acme"]) "acme").1 "acme")
      "acme" = 2 := by decide

/-- C3 (amended): only the on-demand trigger path checks the Syncing gate —
a trigger for a syncing account returns 409 and starts nothing, leaving the
state unchanged — while the scheduler path starts an adapter invocation
unconditionally, never consulting the status map. -/
theorem c3_trigger_gate (accounts : List String) (s : DaemonSys.SysState) (a : String)
    (hmem : accounts.contains a = true)
    (hsync : (SyncApi.getStatus s.status a).syncing = true) :
    DaemonSys.sysTrigger accounts s a = (s, 409) ∧
    DaemonSys.getInFlight (DaemonSys.sysSchedTick s a) a = DaemonSys.getInFlight s a + 1 :=
  ⟨sysTrigger_busy accounts s a hmem hsync, getInFlight_sysSchedTick s a⟩

/-- C3 witness: the gate theorem applied to the one-account system already
set syncing by an accepted trigger. -/
theorem c3_trigger_gate_witness :
    DaemonSys.sysTrigger ["acme"]
      (DaemonSys.sysTrigger ["acme"] (DaemonSys.initSys ["acme"]) "acme").1 "acme" =
      ((DaemonSys.sysTrigger ["acme"] (DaemonSys.initSys ["acme"]) "acme").1, 409) :=
  (c3_trigger_gate ["acme"]
    (DaemonSys.sysTrigger ["acme"] (DaemonSys.initSys ["acme"]) "acme").1 "acme"
    (by decide) (by decide)).1

/-- C8 counterexample: a sync-all request while `acme` is syncing and
`beta` is idle is rejected wholesale with 409 naming only `acme`; `beta` is
not started, no worker thread is spawned, and the status map is unchanged. -/
theorem c8_sync_all_rejected_counterexample :
    (SyncApi.getStatus stC8 "acme").syncing = true ∧
    (SyncApi.getStatus stC8 "beta").syncing = false ∧
    SyncApi.trigger_sync ["acme", "beta"] stC8 none =
      { code := 409, respAccounts := ["acme"], status := stC8, spawned := none } := by
  decide

/-- C8 (amended): a sync-all request with ANY busy target is rejected as a
whole — 409 naming exactly the busy accounts, status untouched, nothing
spawned; only when every target is idle are all targets marked syncing and
handed to ONE spawned worker, which processes them sequentially in list
order. -/
theorem c8_trigger_all_gate (accounts : List String) (st : SyncApi.StatusMap) :
    ((∃ n ∈ accounts, (SyncApi.getStatus st n).syncing = true) →
      SyncApi.trigger_sync accounts st none =
        { code := 409,
          respAccounts := accounts.filter (fun n => (SyncApi.getStatus st n).syncing),
          status := st, spawned := none }) ∧
    ((∀ n ∈ accounts, (SyncApi.getStatus st n).syncing = false) →
      SyncApi.trigger_sync accounts st none =
        { code := 202, respAccounts := accounts,
          status := accounts.foldl (fun m n => SyncApi.setStatus m n
            fun r => { r with syncing := true, last_error := none }) st,
          spawned := some accounts }) ∧
    (∀ (st2 : SyncApi.StatusMap) (a : String) (rest : List String)
      (results : String → Except String Int) (now : Nat),
      SyncApi._run_sync st2 (a :: rest) results now =
        SyncApi._run_sync (SyncApi.runSyncOne st2 a (results a) now) rest results now) := by
  refine ⟨?_, ?_, fun st2 a rest results now => rfl⟩
  · rintro ⟨n, hn, hsync⟩
    refine trigger_sync_none_busy accounts st ?_
    have : n ∈ accounts.filter (fun n => (SyncApi.getStatus st n).syncing) :=
      List.mem_filter.mpr ⟨hn, by rw [hsync]⟩
    exact List.ne_nil_of_mem this
  · intro hidle
    exact trigger_sync_none_idle accounts st hidle

/-- C8 witness: the gate theorem applied to the concrete busy/idle pair. -/
theorem c8_trigger_all_gate_witness :
    SyncApi.trigger_sync ["acme", "beta"] stC8 none =
      { code := 409,
        respAccounts := ["acme", "beta"].filter (fun n => (SyncApi.getStatus stC8 n).syncing),
        status := stC8, spawned := none } :=
  (c8_trigger_all_gate ["acme", "beta"] stC8).1
    ⟨"acme", by decide, by decide⟩

/-- C1 counterexample: with a file already present at the exact target
path (holding different content) and an empty sync state, the POP3 sync
does not skip the write — it overwrites the existing archive file. -/
theorem c1_overwrite_counterexample :
    fsExists [(SyncPop3.pop3Filepath (SyncPop3.pop3InboxDir "emails" "acme") msgNoDateA,
        strToBytes "OLD")]
      (SyncPop3.pop3Filepath (SyncPop3.pop3InboxDir "emails" "acme") msgNoDateA) = true ∧
    strToBytes "OLD" ≠ msgNoDateA ∧
    runOk (SyncPop3.sync_pop3_account "acme" [msgNoDateA] "emails"
      [(SyncPop3.pop3Filepath (SyncPop3.pop3InboxDir "emails" "acme") msgNoDateA,
        strToBytes "OLD")] nowUTC) = true ∧
    fsRead (runFS (SyncPop3.sync_pop3_account "acme" [msgNoDateA] "emails"
        [(SyncPop3.pop3Filepath (SyncPop3.pop3InboxDir "emails" "acme") msgNoDateA,
          strToBytes "OLD")] nowUTC))
      (SyncPop3.pop3Filepath (SyncPop3.pop3InboxDir "emails" "acme") msgNoDateA) =
      some msgNoDateA ∧
    runCount (SyncPop3.sync_pop3_account "acme" [msgNoDateA] "emails"
      [(SyncPop3.pop3Filepath (SyncPop3.pop3InboxDir "emails" "acme") msgNoDateA,
        strToBytes "OLD")] nowUTC) = 1 := by
  decide

/-- C1 (amended): no adapter checks whether the target filename exists —
deduplication is solely by the identifier set. A POP3 message whose hash is
recorded is skipped untouched; one whose hash is absent is written
unconditionally, overwriting any file already at its path; the Gmail
download loop likewise writes every new id unconditionally; and the IMAP
adapter never reaches its write path (NameError at line 85). -/
theorem c1_dedup_by_state_only :
    (∀ (d : String) (now : PyDateTime) (raw : Bytes) (fs : FS) (synced : List String) (t : Nat),
      synced.contains (SyncPop3._msg_hash raw) = true →
      SyncPop3.pop3Loop d now [raw] fs synced t = .ok (fs, synced, t)) ∧
    (∀ (d : String) (now : PyDateTime) (raw : Bytes) (fs : FS) (synced : List String) (t : Nat)
      (dt : PyDateTime),
      synced.contains (SyncPop3._msg_hash raw) = false →
      SyncPop3._parse_date raw now = .ok dt →
      SyncPop3.pop3Loop d now [raw] fs synced t =
        .ok (fsWrite fs (SyncPop3.pop3Filepath d raw) raw,
          setAdd synced (SyncPop3._msg_hash raw), t + 1) ∧
      fsRead (fsWrite fs (SyncPop3.pop3Filepath d raw) raw) (SyncPop3.pop3Filepath d raw) =
        some raw) ∧
    (∀ (remote : SyncGmail.GmailRemote) (fp sf mid : String) (fs : FS)
      (synced : List String) (t : Nat), (t + 1) % 100 ≠ 0 →
      SyncGmail.gmailDownLoop remote fp sf [mid] fs synced t =
        (fsWrite fs (SyncGmail.gmailFilepath fp (remote.rawOf mid) mid) (remote.rawOf mid),
          setAdd synced mid, t + 1)) ∧
    (∀ (acct : String) (cfg : SyncImap.FoldersCfg) (remote : SyncImap.ImapRemote)
      (bd : String) (fs0 : FS) (f : String) (rest : List String),
      SyncImap.resolveFolders cfg remote = f :: rest →
      SyncImap.sync_imap_account acct cfg remote bd fs0 =
        .error (.nameError "name 'imap_folder_to_dir' is not defined")) := by
  refine ⟨?_, ?_, ?_, ?_⟩
  · intro d now raw fs synced t hc
    exact pop3Loop_skip_all d now [raw] fs synced t (by intro m hm; simp at hm; rw [hm]; exact hc)
  · intro d now raw fs synced t dt hc hp
    constructor
    · simp only [SyncPop3.pop3Loop, hc, Bool.false_eq_true, if_false, hp]
    · exact fsRead_fsWrite_self fs _ raw
  · intro remote fp sf mid fs synced t h100
    simp only [SyncGmail.gmailDownLoop]
    rw [if_neg h100]
  · intro acct cfg remote bd fs0 f rest hf
    exact imap_run_error acct cfg remote bd fs0 f rest hf

/-- C1 witness: the dedup theorem applied to concrete inputs — a recorded
hash is skipped, and the IMAP adapter raises on the scenario input. -/
theorem c1_dedup_by_state_only_witness :
    SyncPop3.pop3Loop "d" nowUTC [msgNoDateA] [] [SyncPop3._msg_hash msgNoDateA] 0 =
      .ok ([], [SyncPop3._msg_hash msgNoDateA], 0) ∧
    SyncImap.sync_imap_account "acme" (.list ["INBOX"]) imapScenarioRemote "emails" [] =
      .error (.nameError "name 'imap_folder_to_dir' is not defined") :=
  ⟨c1_dedup_by_state_only.1 "d" nowUTC msgNoDateA [] [SyncPop3._msg_hash msgNoDateA] 0
      (List.elem_eq_true_of_mem (List.mem_cons_self _ _)),
    c1_dedup_by_state_only.2.2.2 "acme" (.list ["INBOX"]) imapScenarioRemote "emails" []
      "INBOX" [] (by decide)⟩

/-- C4 counterexample: a POP3 run over a two-message mailbox interrupted
after the first message has written that message's file to disk, but the
persisted state artifact records nothing — the hash set is only saved once,
after the whole mailbox, so the crash loses the whole run's identifiers. -/
theorem c4_unpersisted_after_first_message :
    afterOk (SyncPop3.pop3AfterK "acme" [msgNoDateA, msgNoDateB] "emails" [] nowUTC 1) = true ∧
    afterCount (SyncPop3.pop3AfterK "acme" [msgNoDateA, msgNoDateB] "emails" [] nowUTC 1) = 1 ∧
    fsRead (afterFS (SyncPop3.pop3AfterK "acme" [msgNoDateA, msgNoDateB] "emails" [] nowUTC 1))
      (SyncPop3.pop3Filepath (SyncPop3.pop3InboxDir "emails" "acme") msgNoDateA) =
      some msgNoDateA ∧
    SyncPop3._load_synced_hashes
      (afterFS (SyncPop3.pop3AfterK "acme" [msgNoDateA, msgNoDateB] "emails" [] nowUTC 1))
      (SyncPop3.pop3StateFile "emails" "acme") = [] := by
  decide

/-- C4 (amended): the POP3 adapter persists the folder state only once, at
the end of the full run — at every intermediate point the persisted
artifact is unchanged from the run's start — and completion records every
mailbox message's hash. (IMAP saves per 100-UID batch and Gmail per 100
downloads per the code, but a POP3 crash loses the whole run's
identifiers, contradicting the claim.) -/
theorem c4_pop3_saves_only_at_end (acct : String) (remote : List Bytes) (bd : String)
    (fs0 : FS) (now : PyDateTime) :
    (∀ (k : Nat) (fsI : FS) (syncedI : List String) (tI : Nat),
      SyncPop3.pop3AfterK acct remote bd fs0 now k = .ok (fsI, syncedI, tI) →
      fsRead fsI (SyncPop3.pop3StateFile bd acct) =
        fsRead (SyncPop3.pop3MigrateFS bd acct fs0) (SyncPop3.pop3StateFile bd acct)) ∧
    (∀ (fsR : FS) (n : Nat),
      (∀ x ∈ SyncPop3._load_synced_hashes fs0 (SyncPop3.pop3StateFile bd acct), CleanId x) →
      (∀ x ∈ SyncPop3._load_synced_hashes fs0 (SyncPop3.pop3OldState bd acct), CleanId x) →
      SyncPop3.sync_pop3_account acct remote bd fs0 now = .ok (fsR, n) →
      ∀ m ∈ remote, SyncPop3._msg_hash m ∈
        SyncPop3._load_synced_hashes fsR (SyncPop3.pop3StateFile bd acct)) := by
  constructor
  · intro k fsI syncedI tI h
    obtain ⟨-, -, -, f4⟩ := pop3Loop_ok_facts (SyncPop3.pop3InboxDir bd acct) now
      (remote.take k) (SyncPop3.pop3MigrateFS bd acct fs0)
      (SyncPop3._load_synced_hashes (SyncPop3.pop3MigrateFS bd acct fs0)
        (SyncPop3.pop3StateFile bd acct)) 0 fsI syncedI tI h
    exact f4 (SyncPop3.pop3StateFile bd acct) (pop3StateFile_not_eml bd acct)
  · intro fsR n hc0 hcold h
    exact (pop3_run_facts acct remote bd fs0 now fsR n hc0 hcold h).2.1

/-- C4 witness: the persistence theorem applied to the interrupted and the
completed concrete two-message run. -/
theorem c4_pop3_saves_only_at_end_witness :
    fsRead (afterFS (SyncPop3.pop3AfterK "acme" [msgNoDateA, msgNoDateB] "emails" [] nowUTC 1))
      (SyncPop3.pop3StateFile "emails" "acme") =
      fsRead (SyncPop3.pop3MigrateFS "emails" "acme" [])
        (SyncPop3.pop3StateFile "emails" "acme") ∧
    SyncPop3._msg_hash msgNoDateA ∈
      SyncPop3._load_synced_hashes
        (runFS (SyncPop3.sync_pop3_account "acme" [msgNoDateA, msgNoDateB] "emails" [] nowUTC))
        (SyncPop3.pop3StateFile "emails" "acme") :=
  ⟨(c4_pop3_saves_only_at_end "acme" [msgNoDateA, msgNoDateB] "emails" [] nowUTC).1 1
      (afterFS (SyncPop3.pop3AfterK "acme" [msgNoDateA, msgNoDateB] "emails" [] nowUTC 1))
      (afterSynced (SyncPop3.pop3AfterK "acme" [msgNoDateA, msgNoDateB] "emails" [] nowUTC 1))
      (afterCount (SyncPop3.pop3AfterK "acme" [msgNoDateA, msgNoDateB] "emails" [] nowUTC 1))
      (by decide),
    (c4_pop3_saves_only_at_end "acme" [msgNoDateA, msgNoDateB] "emails" [] nowUTC).2
      (runFS (SyncPop3.sync_pop3_account "acme" [msgNoDateA, msgNoDateB] "emails" [] nowUTC))
      (runCount (SyncPop3.sync_pop3_account "acme" [msgNoDateA, msgNoDateB] "emails" [] nowUTC))
      (by decide) (by decide) (by decide) msgNoDateA (by decide)⟩


theorem emptyFS_loads_clean :
    ∀ d : String, ∀ x ∈ SyncGmail._load_synced_ids ([] : FS) (d ++ "/.sync_state"), CleanId x := by
  intro d x hx
  rw [gmail_load_empty_of_absent ([] : FS) _ rfl] at hx
  exact absurd hx (List.not_mem_nil x)

/-- C5 counterexample: a POP3 sync over an unchanged mailbox, starting from
a (hand-corrupted) state artifact whose second line carries a leading
space, removes that identifier: the rewrite sorts the padded line first and
the next load strips it, so `" b"` is recorded before the run but no longer
recorded after it. -/
theorem c5_identifier_lost_counterexample :
    " b" ∈ SyncPop3._load_synced_hashes c5CorruptFS (SyncPop3.pop3StateFile "emails" "acme") ∧
    runOk (SyncPop3.sync_pop3_account "acme" [] "emails" c5CorruptFS nowUTC) = true ∧
    ¬ " b" ∈ SyncPop3._load_synced_hashes
        (runFS (SyncPop3.sync_pop3_account "acme" [] "emails" c5CorruptFS nowUTC))
        (SyncPop3.pop3StateFile "emails" "acme") := by
  decide

/-- C5 (amended): for state artifacts in the canonical form the adapters
themselves write (every recorded identifier nonempty and whitespace-free),
no sync run removes an identifier: the POP3 run's recorded set and every
folder's recorded set under a Gmail run only grow, and a completed IMAP run
leaves the file system untouched. -/
theorem c5_state_monotone_canonical :
    (∀ (acct : String) (remote : List Bytes) (bd : String) (fs0 : FS) (now : PyDateTime)
      (fsR : FS) (n : Nat),
      (∀ x ∈ SyncPop3._load_synced_hashes fs0 (SyncPop3.pop3StateFile bd acct), CleanId x) →
      (∀ x ∈ SyncPop3._load_synced_hashes fs0 (SyncPop3.pop3OldState bd acct), CleanId x) →
      SyncPop3.sync_pop3_account acct remote bd fs0 now = .ok (fsR, n) →
      ∀ x ∈ SyncPop3._load_synced_hashes fs0 (SyncPop3.pop3StateFile bd acct),
        x ∈ SyncPop3._load_synced_hashes fsR (SyncPop3.pop3StateFile bd acct)) ∧
    (∀ (acct : String) (labels : List String) (remote : SyncGmail.GmailRemote) (bd : String)
      (fs0 : FS),
      (∀ d : String, ∀ x ∈ SyncGmail._load_synced_ids fs0 (d ++ "/.sync_state"), CleanId x) →
      (∀ l ∈ labels, ∀ mid ∈ (remote.pages l).flatten, CleanId mid) →
      ∀ d : String, ∀ x ∈ SyncGmail._load_synced_ids fs0 (d ++ "/.sync_state"),
        x ∈ SyncGmail._load_synced_ids
          (SyncGmail.sync_gmail_api_account acct labels remote bd fs0).1
          (d ++ "/.sync_state")) ∧
    (∀ (acct : String) (cfg : SyncImap.FoldersCfg) (remote : SyncImap.ImapRemote) (bd : String)
      (fs0 fsR : FS) (n : Nat),
      SyncImap.sync_imap_account acct cfg remote bd fs0 = .ok (fsR, n) → fsR = fs0) := by
  refine ⟨?_, ?_, ?_⟩
  · intro acct remote bd fs0 now fsR n hc0 hcold h
    exact (pop3_run_facts acct remote bd fs0 now fsR n hc0 hcold h).1
  · intro acct labels remote bd fs0 hclean hids
    exact (gmailFold_facts remote (bd ++ "/" ++ acct) labels fs0 0 hclean hids).2.2.1
  · intro acct cfg remote bd fs0 fsR n h
    exact (imap_run_ok_id acct cfg remote bd fs0 fsR n h).1

/-- C5 witness: the monotonicity theorem applied to a concrete POP3 run on
an artifact recording `"abc"`, and to a concrete Gmail double-state run. -/
theorem c5_state_monotone_canonical_witness :
    "abc" ∈ SyncPop3._load_synced_hashes
      (runFS (SyncPop3.sync_pop3_account "acme" [msgNoDateA] "emails"
        [(SyncPop3.pop3StateFile "emails" "acme", strToBytes "abc")] nowUTC))
      (SyncPop3.pop3StateFile "emails" "acme") :=
  c5_state_monotone_canonical.1 "acme" [msgNoDateA] "emails"
    [(SyncPop3.pop3StateFile "emails" "acme", strToBytes "abc")] nowUTC
    (runFS (SyncPop3.sync_pop3_account "acme" [msgNoDateA] "emails"
      [(SyncPop3.pop3StateFile "emails" "acme", strToBytes "abc")] nowUTC))
    (runCount (SyncPop3.sync_pop3_account "acme" [msgNoDateA] "emails"
      [(SyncPop3.pop3StateFile "emails" "acme", strToBytes "abc")] nowUTC))
    (by decide) (by decide) (by decide) "abc" (by decide)

/-- C6: sync is idempotent on an unchanged remote. A second POP3 run after
a completed one downloads nothing, returns 0, creates no file and records
no identifier; a second Gmail run returns the file system entirely
unchanged with count 0; a completed IMAP run (only possible with an empty
folder set) also repeats as a 0-count no-op. -/
theorem c6_sync_idempotent :
    (∀ (acct : String) (remote : List Bytes) (bd : String) (fs0 : FS) (now now2 : PyDateTime)
      (fsR : FS) (n : Nat),
      (∀ x ∈ SyncPop3._load_synced_hashes fs0 (SyncPop3.pop3StateFile bd acct), CleanId x) →
      (∀ x ∈ SyncPop3._load_synced_hashes fs0 (SyncPop3.pop3OldState bd acct), CleanId x) →
      SyncPop3.sync_pop3_account acct remote bd fs0 now = .ok (fsR, n) →
      ∃ fsR2, SyncPop3.sync_pop3_account acct remote bd fsR now2 = .ok (fsR2, 0) ∧
        (∀ p, p ≠ SyncPop3.pop3StateFile bd acct → fsRead fsR2 p = fsRead fsR p) ∧
        (∀ p, fsExists fsR2 p = fsExists fsR p) ∧
        (∀ x, x ∈ SyncPop3._load_synced_hashes fsR2 (SyncPop3.pop3StateFile bd acct) ↔
          x ∈ SyncPop3._load_synced_hashes fsR (SyncPop3.pop3StateFile bd acct))) ∧
    (∀ (acct : String) (labels : List String) (remote : SyncGmail.GmailRemote) (bd : String)
      (fs0 : FS),
      (∀ d : String, ∀ x ∈ SyncGmail._load_synced_ids fs0 (d ++ "/.sync_state"), CleanId x) →
      (∀ l ∈ labels, ∀ mid ∈ (remote.pages l).flatten, CleanId mid) →
      fsExists fs0 (bd ++ "/" ++ acct ++ "/.sync_state") = false →
      SyncGmail.sync_gmail_api_account acct labels remote bd
        (SyncGmail.sync_gmail_api_account acct labels remote bd fs0).1 =
        ((SyncGmail.sync_gmail_api_account acct labels remote bd fs0).1, 0)) ∧
    (∀ (acct : String) (cfg : SyncImap.FoldersCfg) (remote : SyncImap.ImapRemote) (bd : String)
      (fs0 fsR : FS) (n : Nat),
      SyncImap.sync_imap_account acct cfg remote bd fs0 = .ok (fsR, n) →
      SyncImap.sync_imap_account acct cfg remote bd fsR = .ok (fsR, 0)) := by
  refine ⟨?_, ?_, ?_⟩
  · intro acct remote bd fs0 now now2 fsR n hc0 hcold h
    exact pop3_second_run acct remote bd fs0 now now2 fsR n hc0 hcold h
  · intro acct labels remote bd fs0 hclean hids habs
    exact gmail_second_run acct labels remote bd fs0 hclean hids habs
  · intro acct cfg remote bd fs0 fsR n h
    cases hf : SyncImap.resolveFolders cfg remote with
    | nil =>
      unfold SyncImap.sync_imap_account
      rw [hf]
      rfl
    | cons f rest =>
      rw [imap_run_error acct cfg remote bd fs0 f rest hf] at h
      exact absurd h (by simp)

/-- C6 witness: idempotence applied to concrete POP3, Gmail and IMAP runs. -/
theorem c6_sync_idempotent_witness :
    runCount (SyncPop3.sync_pop3_account "acme" [msgNoDateA] "emails"
      (runFS (SyncPop3.sync_pop3_account "acme" [msgNoDateA] "emails" [] nowUTC)) nowUTC) = 0 ∧
    SyncGmail.sync_gmail_api_account "g" ["INBOX"] gmailWitnessRemote "emails"
      (SyncGmail.sync_gmail_api_account "g" ["INBOX"] gmailWitnessRemote "emails" []).1 =
      ((SyncGmail.sync_gmail_api_account "g" ["INBOX"] gmailWitnessRemote "emails" []).1, 0) ∧
    SyncImap.sync_imap_account "acme" (.list []) imapScenarioRemote "emails" [] =
      .ok ([], 0) := by
  refine ⟨?_, ?_, ?_⟩
  · obtain ⟨fsR2, h1, -, -, -⟩ := c6_sync_idempotent.1 "acme" [msgNoDateA] "emails" [] nowUTC
      nowUTC (runFS (SyncPop3.sync_pop3_account "acme" [msgNoDateA] "emails" [] nowUTC))
      (runCount (SyncPop3.sync_pop3_account "acme" [msgNoDateA] "emails" [] nowUTC))
      (by decide) (by decide) (by decide)
    rw [h1]
    rfl
  · exact c6_sync_idempotent.2.1 "g" ["INBOX"] gmailWitnessRemote "emails" []
      emptyFS_loads_clean (by decide) rfl
  · exact c6_sync_idempotent.2.2 "acme" (.list []) imapScenarioRemote "emails" [] [] 0
      (by decide)

